import Mathlib

/-!
# contiguous_view: a shallow embedding of `src/contiguous-view.h`

The header defines a non-owning (pointer, length) view whose length is either a
compile-time constant (`Extent`) or a stored runtime value (`dynamic_extent`).

Modelling conventions.

* `size_t` is the 64-bit unsigned integer type: a `Nat` below `2 ^ 64`.  Unsigned
  arithmetic written in the source (`offset + count`, `size() * sizeof(T)`) is
  reduced modulo `2 ^ 64` at the place where the source computes it.
* `ptrdiff_t` is the 64-bit signed integer type: an `Int` in `[-2^63, 2^63)`;
  the conversions between `size_t` and `ptrdiff_t` are the modular ones.
* A pointer to `T` is represented by an element position `p`, an `Int`; the
  machine address it holds is the 64-bit byte address `p * sizeof(T) mod 2^64`
  (`address`).  `p + n` moves `n` elements forward, which adds `n * sizeof(T)`
  to the machine address modulo `2 ^ 64`.  Wherever the source inspects
  pointers, in `first <= last` and in `last - first`, the machine addresses are
  compared and subtracted.  The null pointer is position `0`.
* A function that may throw returns `Except failure _`.  `runtime_assert`
  throws `assertion_error`; an exception that leaves a `noexcept` function
  ends the program (`std::terminate`).
* Template arguments (`Extent`, `Offset`, `Count`, `sizeof(T)`) are ordinary
  arguments; a `static_assert`, a `requires` clause and an `explicit` specifier
  are Boolean functions of them.
* An element type is a name with or without a top-level `const`.
  `reinterpret_cast` keeps the address.
-/

namespace ContiguousView

/-! ## Machine integers -/

/-- Source: `inline constexpr size_t dynamic_extent = static_cast<size_t>(-1);` -/
def dynamic_extent : Nat := 2 ^ 64 - 1

/-- Conversion of a signed integer to `size_t` (modular). -/
def to_size_t (z : Int) : Nat := (z % (2 ^ 64 : Int)).toNat

/-- Conversion of an integer to `ptrdiff_t` (modular, two's complement). -/
def to_ptrdiff_t (z : Int) : Int := (z + 2 ^ 63) % (2 ^ 64 : Int) - 2 ^ 63

/-- The machine address held by a `T*` at element position `p`: the byte address
`p * sizeof(T)`, a 64-bit value. -/
def address (sizeofT : Nat) (p : Int) : Nat := ((p * (sizeofT : Int)) % (2 ^ 64 : Int)).toNat

/-- Pointer comparison `first <= last`: the machine addresses are compared. -/
def ptr_le (sizeofT : Nat) (first last : Int) : Bool :=
  decide (address sizeofT first ≤ address sizeofT last)

/-- Pointer subtraction `last - first`, of type `ptrdiff_t`: the difference of
the two machine addresses as a signed 64-bit value, divided by `sizeof(T)`. -/
def ptr_diff (sizeofT : Nat) (last first : Int) : Int :=
  Int.tdiv (to_ptrdiff_t ((address sizeofT last : Int) - (address sizeofT first : Int)))
    (sizeofT : Int)

/-- Source: `std::distance(first, last)` on random-access positions. -/
def distance (sizeofT : Nat) (first last : Int) : Int := ptr_diff sizeofT last first

/-- The null pointer. -/
def nullptr : Int := 0

/-! ## Failures -/

/-- The ways in which a call can fail to return. -/
inductive failure where
  /-- Source: `struct assertion_error : std::runtime_error`, thrown by `runtime_assert`. -/
  | assertion_error (message : String)
  /-- An exception left a `noexcept` function: `std::terminate`. -/
  | terminate
  deriving DecidableEq, Repr

/-- Source (`runtime-assert.cpp`):
`if (!condition) { throw assertion_error(message); }` -/
def runtime_assert (condition : Bool) (message : String) : Except failure Unit :=
  if !condition then .error (failure.assertion_error message) else .ok ()

/-- A function declared `noexcept`: any exception leaving it ends the program. -/
def noexcept {α : Type} (body : Except failure α) : Except failure α :=
  match body with
  | .ok a => .ok a
  | .error _ => .error failure.terminate

/-- The call failed with the error kind raised by the assertion primitive
(`assertion_error`, the BoundsError of the specification), delivered to the caller. -/
def isBoundsError {α : Type} (r : Except failure α) : Bool :=
  match r with
  | .error (failure.assertion_error _) => true
  | _ => false

/-- The call returned a value. -/
def succeeds {α : Type} (r : Except failure α) : Bool :=
  match r with
  | .ok _ => true
  | .error _ => false

/-! ## Extent storage: `sizer<Ext>` -/

/-- Source: `template <size_t Ext> struct sizer` (no data member) and its
specialisation `sizer<dynamic_extent>` (one `size_t size_`). -/
inductive sizer where
  | fixed (Ext : Nat)
  | dynamic (size_ : Nat)
  deriving DecidableEq, Repr

/-- Constructor `sizer<Ext>(size_t num)`: the primary template discards `num`,
the specialisation stores it. -/
def sizer.ctor (Ext : Nat) (num : Nat) : sizer :=
  if Ext = dynamic_extent then sizer.dynamic num else sizer.fixed Ext

/-- Source: `size_t size() const`: `return Ext;` resp. `return size_;`. -/
def sizer.size : sizer → Nat
  | sizer.fixed Ext => Ext
  | sizer.dynamic size_ => size_

/-- The template argument `Ext` of a `sizer<Ext>` value. -/
def sizer.Ext : sizer → Nat
  | sizer.fixed Ext => Ext
  | sizer.dynamic _ => dynamic_extent

/-! ## Element types -/

/-- An element type `T` of a view: an unqualified object type, named, with or
without a top-level `const`. -/
structure elem_type where
  name : String
  is_const : Bool
  deriving DecidableEq, Repr

/-- Source: `std::remove_const_t<T>`. -/
def remove_const_t (T : elem_type) : elem_type := ⟨T.name, false⟩

/-- Source: `std::is_same_v<U, T>`. -/
def is_same_v (U T : elem_type) : Bool := decide (U = T)

/-- Source: `std::is_const_v<T>`. -/
def is_const_v (T : elem_type) : Bool := T.is_const

/-- The element type `const char`. -/
def const_char : elem_type := ⟨"char", true⟩

/-- The standard library's `std::string_view`, as far as the view uses it: the
pointer and the length given to `std::string_view(const char*, std::size_t)`. -/
structure string_view where
  data : Int
  size : Nat
  deriving DecidableEq, Repr

/-! ## The view -/

/-- Source: `template <typename T, size_t Extent> class contiguous_view` with
members `pointer _first;` and `[[no_unique_address]] sizer<Extent> size_;`. -/
structure contiguous_view where
  _first : Int
  size_ : sizer
  deriving DecidableEq, Repr

namespace contiguous_view

/-- The template argument `Extent` of the view's type. -/
def Extent (v : contiguous_view) : Nat := v.size_.Ext

/-- Source: `pointer data() const noexcept { return _first; }` -/
def data (v : contiguous_view) : Int := v._first

/-- Source: `size_t size() const noexcept { return size_.size(); }` -/
def size (v : contiguous_view) : Nat := v.size_.size

/-- Source: `size_t size_bytes() const noexcept { return size() * sizeof(T); }` -/
def size_bytes (sizeofT : Nat) (v : contiguous_view) : Nat := (v.size * sizeofT) % 2 ^ 64

/-- Source: `bool empty() const noexcept { return (size() == 0); }` -/
def empty (v : contiguous_view) : Bool := v.size == 0

/-- Source: `iterator begin() const noexcept { return _first; }` -/
def begin (v : contiguous_view) : Int := v._first

/-- Source: `iterator end() const noexcept { return _first + size(); }` -/
def «end» (v : contiguous_view) : Int := v._first + v.size

/-- Source: `contiguous_view() noexcept requires (Extent == dynamic_extent || Extent == 0)`
with `_first(nullptr), size_(0)`.  The value is the constraint of the `requires` clause. -/
def ctor_default_requires (Extent : Nat) : Bool := Extent == dynamic_extent || Extent == 0

/-- Body of the default constructor. -/
def ctor_default (Extent : Nat) : contiguous_view := ⟨nullptr, sizer.ctor Extent 0⟩

/-- Source: `contiguous_view(It first, size_t count)`:
`_first(std::to_address(first)), size_(count)` then
`runtime_assert(count <= size(), "no");` -/
def ctor_count (Extent : Nat) (first : Int) (count : Nat) : Except failure contiguous_view :=
  let v : contiguous_view := ⟨first, sizer.ctor Extent count⟩
  (runtime_assert (decide (count ≤ v.size)) "no").bind fun _ => .ok v

/-- Source: `contiguous_view(It first, It last)`: delegates to
`contiguous_view(std::to_address(first), last - first)`, then
`runtime_assert((first <= last && std::distance(first, last) <= static_cast<ptrdiff_t>(size())), "no");`
The pointers are compared and subtracted as machine addresses of elements of
`sizeof(T)` bytes. -/
def ctor_range (sizeofT : Nat) (Extent : Nat) (first last : Int) :
    Except failure contiguous_view :=
  (ctor_count Extent first (to_size_t (ptr_diff sizeofT last first))).bind fun v =>
  (runtime_assert
      (ptr_le sizeofT first last &&
        decide (distance sizeofT first last ≤ to_ptrdiff_t (v.size : Int))) "no").bind
    fun _ => .ok v

/-- Source: the converting constructor
`contiguous_view(const contiguous_view<U, N>& other) noexcept`:
`_first(other.begin()), size_(other.size())` then
`runtime_assert(other.size() <= size(), "no");` -/
def ctor_convert (Extent : Nat) (other : contiguous_view) : Except failure contiguous_view :=
  noexcept <|
    let v : contiguous_view := ⟨other.begin, sizer.ctor Extent other.size⟩
    (runtime_assert (decide (other.size ≤ v.size)) "no").bind fun _ => .ok v

/-- Source: `reference operator[](size_t idx) const`:
`runtime_assert(idx < size(), "fefe"); return *(_first + idx);`
The reference is represented by the position it designates. -/
def operator_index (v : contiguous_view) (idx : Nat) : Except failure Int :=
  (runtime_assert (decide (idx < v.size)) "fefe").bind fun _ => .ok (v._first + idx)

/-- Source: `reference front() const`:
`runtime_assert(size() > 0, ""); return *_first;` -/
def front (v : contiguous_view) : Except failure Int :=
  (runtime_assert (decide (v.size > 0)) "").bind fun _ => .ok v._first

/-- Source: `reference back() const`:
`runtime_assert(!empty(), ""); return *(_first + size() - 1);` -/
def back (v : contiguous_view) : Except failure Int :=
  (runtime_assert (!v.empty) "").bind fun _ => .ok (v._first + v.size - 1)

/-- Source: `contiguous_view<T, dynamic_extent> subview(size_t offset, size_t count = dynamic_extent) const`.
The sum `offset + count` is a `size_t` sum.  The pointers `_first + offset`,
`_first + size()` and `_first + offset + count` are handed to the two-position
constructor, which works on their machine addresses (`address`, wrapping modulo
`2 ^ 64` bytes). -/
def subview (sizeofT : Nat) (v : contiguous_view) (offset count : Nat) :
    Except failure contiguous_view :=
  if count = dynamic_extent then
    (runtime_assert (decide (offset ≤ v.size)) "Offset < size.").bind fun _ =>
    ctor_range sizeofT dynamic_extent (v._first + offset) (v._first + v.size)
  else
    (runtime_assert (decide ((offset + count) % 2 ^ 64 ≤ v.size))
      "Size + Offset must be lower or equals than size.").bind fun _ =>
    ctor_range sizeofT dynamic_extent (v._first + offset) (v._first + offset + count)

/-- The two `static_assert`s of `subview<Offset, Count>()`:
`Offset <= Extent` and `Count == dynamic_extent || Count <= Extent - Offset`
(the difference is a `size_t` difference). -/
def subview_tmpl_static_assert (Extent Offset Count : Nat) : Bool :=
  decide (Offset ≤ Extent) &&
    (Count == dynamic_extent || decide (Count ≤ (Extent + 2 ^ 64 - Offset) % 2 ^ 64))

/-- Source: `template <size_t Offset, size_t Count = dynamic_extent> auto subview() const`
(the run-time part).  When the count is omitted the pointers `_first + Offset`
and `_first + size()` (or `end()`) are handed to the two-position constructor,
which works on their machine addresses. -/
def subview_tmpl (sizeofT : Nat) (v : contiguous_view) (Offset Count : Nat) :
    Except failure contiguous_view :=
  if Count = dynamic_extent then
    (runtime_assert (decide (Offset ≤ v.size)) "Offset < size.").bind fun _ =>
    if v.Extent = dynamic_extent then
      ctor_range sizeofT dynamic_extent (v._first + Offset) (v._first + v.size)
    else
      ctor_range sizeofT ((v.Extent + 2 ^ 64 - Offset) % 2 ^ 64) (v._first + Offset) v.«end»
  else
    (runtime_assert (decide ((Offset + Count) % 2 ^ 64 ≤ v.size)) "Size And Offset must be lower").bind
      fun _ => ctor_count Count (v._first + Offset) Count

/-- The `static_assert(Count <= Extent)` of `first<Count>()` and `last<Count>()`. -/
def first_tmpl_static_assert (Extent Count : Nat) : Bool := decide (Count ≤ Extent)

/-- Source: `template <size_t Count> contiguous_view<T, Count> first() const`:
`runtime_assert(Count <= size(), ""); return contiguous_view<T, Count>(begin(), Count);` -/
def first_tmpl (v : contiguous_view) (Count : Nat) : Except failure contiguous_view :=
  (runtime_assert (decide (Count ≤ v.size)) "").bind fun _ => ctor_count Count v.begin Count

/-- Source: `contiguous_view<T, dynamic_extent> first(size_t count) const`:
`runtime_assert(count <= size(), "y"); return contiguous_view<T, dynamic_extent>(begin(), count);` -/
def first (v : contiguous_view) (count : Nat) : Except failure contiguous_view :=
  (runtime_assert (decide (count ≤ v.size)) "y").bind fun _ => ctor_count dynamic_extent v.begin count

/-- Source: `contiguous_view<T, dynamic_extent> last(size_t count) const`:
`runtime_assert(count <= size(), "");`
`return contiguous_view<T, dynamic_extent>(begin() + size() - count, count);` -/
def last (v : contiguous_view) (count : Nat) : Except failure contiguous_view :=
  (runtime_assert (decide (count ≤ v.size)) "").bind fun _ =>
    ctor_count dynamic_extent (v.begin + v.size - count) count

/-- The `static_assert(Count <= Extent)` of `last<Count>()`. -/
def last_tmpl_static_assert (Extent Count : Nat) : Bool := decide (Count ≤ Extent)

/-- Source: `template <size_t Count> contiguous_view<T, Count> last() const`:
`runtime_assert(Count <= size(), "");`
`return contiguous_view<T, Count>(begin() + size() - Count, Count);` -/
def last_tmpl (v : contiguous_view) (Count : Nat) : Except failure contiguous_view :=
  (runtime_assert (decide (Count ≤ v.size)) "").bind fun _ =>
    ctor_count Count (v.begin + v.size - Count) Count

/-- The `requires` clause of the converting constructor
`contiguous_view<T, Extent>(const contiguous_view<U, N>& other)`:
`!(std::is_same_v<U, std::remove_const_t<T>>) || N == dynamic_extent ||`
`Extent == dynamic_extent || N == Extent`. -/
def ctor_convert_requires (T : elem_type) (Extent : Nat) (U : elem_type) (N : Nat) : Bool :=
  !(is_same_v U (remove_const_t T)) || N == dynamic_extent || Extent == dynamic_extent ||
    N == Extent

/-- The `explicit` specifier of the converting constructor:
`explicit(Extent != dynamic_extent && Extent != N)`. -/
def ctor_convert_explicit (Extent N : Nat) : Bool :=
  Extent != dynamic_extent && Extent != N

/-- The `explicit` specifier of the two constructors from positions:
`explicit(Extent != dynamic_extent)`. -/
def ctor_count_explicit (Extent : Nat) : Bool := Extent != dynamic_extent

/-- Source: `inline static constexpr size_t fun =`
`(Extent != dynamic_extent) ? (Extent * sizeof(T)) : dynamic_extent;` -/
def fun_ (Extent sizeofT : Nat) : Nat :=
  if Extent ≠ dynamic_extent then (Extent * sizeofT) % 2 ^ 64 else dynamic_extent

/-- Source: `using byte = std::conditional_t<std::is_const_v<T>, const std::byte, std::byte>;` -/
def byte (T : elem_type) : elem_type :=
  if is_const_v T then ⟨"std::byte", true⟩ else ⟨"std::byte", false⟩

/-- Source: `contiguous_view<byte, fun> as_bytes() const`:
`return contiguous_view<byte, fun>(reinterpret_cast<byte*>(begin()), size_bytes());`
The cast keeps the address; the positions of the result are counted in bytes. -/
def as_bytes (sizeofT : Nat) (v : contiguous_view) : Except failure contiguous_view :=
  ctor_count (fun_ v.Extent sizeofT) v.begin (v.size_bytes sizeofT)

/-- The `requires` clause of `explicit operator std::string_view() const`:
`std::is_same_v<T, const char>`. -/
def operator_string_view_requires (T : elem_type) : Bool := is_same_v T const_char

/-- Source: `explicit operator std::string_view() const`:
`return std::string_view(reinterpret_cast<const char*>(begin()), static_cast<std::size_t>(size()));`
The cast of the pointer keeps the address, the cast of `size()` is from
`size_t` to `size_t`. -/
def operator_string_view (v : contiguous_view) : string_view := ⟨v.begin, v.size⟩

end contiguous_view

/-! ## Statement vocabulary -/

/-- The call either returned, or failed with the assertion primitive's error
delivered to its caller. -/
def returnsOrBoundsError {α : Type} (r : Except failure α) : Bool :=
  succeeds r || isBoundsError r

/-- The storage viewed by `v`, `size()` elements of `sizeof(T)` bytes from
`_first`, exists: it lies in the 64-bit address space and its byte size does not
exceed `PTRDIFF_MAX`. -/
def over_storage (sizeofT : Nat) (v : contiguous_view) : Prop :=
  1 ≤ sizeofT ∧ 0 ≤ v._first ∧ (v._first + (v.size : Int)) * (sizeofT : Int) < 2 ^ 64 ∧
    v.size * sizeofT < 2 ^ 63

instance (sizeofT : Nat) (v : contiguous_view) : Decidable (over_storage sizeofT v) :=
  inferInstanceAs
    (Decidable (1 ≤ sizeofT ∧ 0 ≤ v._first ∧
      (v._first + (v.size : Int)) * (sizeofT : Int) < 2 ^ 64 ∧ v.size * sizeofT < 2 ^ 63))

/-- The view `w` lies entirely within the view `v`: with `(A, L)` the address and
length of `v` and `(A', L')` those of `w`, `A <= A'` and `A' + L' <= A + L`. -/
def within (w v : contiguous_view) : Prop :=
  v._first ≤ w._first ∧ w._first + (w.size : Int) ≤ v._first + (v.size : Int)

instance (w v : contiguous_view) : Decidable (within w v) :=
  inferInstanceAs
    (Decidable (v._first ≤ w._first ∧ w._first + (w.size : Int) ≤ v._first + (v.size : Int)))

/-! ## Fixtures of the test suite -/

/-- Source (tests): `make_array(10, 20, 30)` viewed as `contiguous_view<element>`;
the array is placed at position `1000`. -/
def view3_dynamic : contiguous_view := ⟨1000, sizer.dynamic 3⟩

/-- Source (tests): `make_array(10, 20, 30)` viewed as `contiguous_view<element, 3>`. -/
def view3_static : contiguous_view := ⟨1000, sizer.fixed 3⟩

/-- Source (tests): `make_array(10, 20, 30, 40, 50)` viewed as `contiguous_view<element, 5>`. -/
def view5_static : contiguous_view := ⟨1000, sizer.fixed 5⟩

/-- Source (tests): `contiguous_view<element, dynamic_extent> v;`, the
default-constructed view of `dynamic_extent_tests.default_ctor`. -/
def view_default_dynamic : contiguous_view := contiguous_view.ctor_default dynamic_extent

/-- Source (tests): `std::string test("abacaba")` viewed as
`contiguous_view<const char, dynamic_extent>`. -/
def view7_dynamic : contiguous_view := ⟨1000, sizer.dynamic 7⟩

/-- Source (tests): `std::string test("abacaba")` viewed as `contiguous_view<const char, 7>`. -/
def view7_static : contiguous_view := ⟨1000, sizer.fixed 7⟩

/-- Source (tests): `sizeof(element)`, the size of a class holding one `int`. -/
def sizeof_element : Nat := 4

/-- The element type `element` of the test suite. -/
def element : elem_type := ⟨"element", false⟩

/-- The element type `const element` of the test suite. -/
def const_element : elem_type := ⟨"element", true⟩

/-! ## Basic facts about the primitives -/

theorem runtime_assert_bind {α : Type} (c : Bool) (m : String) (k : Unit → Except failure α) :
    (runtime_assert c m).bind k = if c then k () else .error (failure.assertion_error m) := by
  cases c <;> rfl

theorem bind_ok {α β : Type} (a : α) (f : α → Except failure β) :
    (Except.ok a : Except failure α).bind f = f a := rfl

theorem bind_error {α β : Type} (e : failure) (f : α → Except failure β) :
    (Except.error e : Except failure α).bind f = .error e := rfl

theorem isBoundsError_ok {α : Type} (a : α) : isBoundsError (Except.ok a : Except failure α) = false := rfl

theorem isBoundsError_assertion {α : Type} (m : String) :
    isBoundsError (Except.error (failure.assertion_error m) : Except failure α) = true := rfl

theorem isBoundsError_terminate {α : Type} :
    isBoundsError (Except.error failure.terminate : Except failure α) = false := rfl

theorem succeeds_ok {α : Type} (a : α) : succeeds (Except.ok a : Except failure α) = true := rfl

theorem succeeds_error {α : Type} (e : failure) : succeeds (Except.error e : Except failure α) = false := rfl

theorem dynamic_extent_eq : dynamic_extent = 18446744073709551615 := by
  unfold dynamic_extent; norm_num

namespace contiguous_view

/-- The count constructor, case by case: a dynamic extent stores the count and
never fails, a static extent `Extent` keeps `Extent` and rejects larger counts. -/
theorem ctor_count_eq (Extent : Nat) (first : Int) (count : Nat) :
    ctor_count Extent first count =
      if Extent = dynamic_extent then .ok ⟨first, sizer.dynamic count⟩
      else if count ≤ Extent then .ok ⟨first, sizer.fixed Extent⟩
      else .error (failure.assertion_error "no") := by
  unfold ctor_count
  simp only [runtime_assert_bind, sizer.ctor, size]
  by_cases hE : Extent = dynamic_extent
  · simp [hE, sizer.size]
  · simp [hE, sizer.size]

end contiguous_view

/-! ## Pointers that hold addresses of existing storage -/

/-- A position whose byte address lies in the address space holds that address. -/
theorem address_of_valid (S : Nat) (p : Int) (h0 : 0 ≤ p) (h1 : p * (S : Int) < 2 ^ 64) :
    (address S p : Int) = p * (S : Int) := by
  have hnn : 0 ≤ p * (S : Int) := mul_nonneg h0 (Int.ofNat_nonneg S)
  unfold address
  rw [Int.toNat_of_nonneg (Int.emod_nonneg _ (by norm_num)), Int.emod_eq_of_lt hnn h1]

/-- Moving a pointer `n` elements forward adds `n * sizeof(T)` to its machine
address, modulo `2 ^ 64`. -/
theorem address_add (S : Nat) (p : Int) (n : Nat) :
    address S (p + (n : Int)) = (address S p + n * S) % 2 ^ 64 := by
  unfold address
  have h : ((p + (n : Int)) * (S : Int)) % (2 ^ 64 : Int)
      = ((p * (S : Int)) % (2 ^ 64 : Int) + (n : Int) * (S : Int)) % (2 ^ 64 : Int) := by
    rw [Int.add_mul, Int.emod_add_cancel_right, Int.emod_emod_of_dvd _ (dvd_refl _)]
  have hnn : 0 ≤ (p * (S : Int)) % (2 ^ 64 : Int) := Int.emod_nonneg _ (by norm_num)
  rw [h]
  generalize (p * (S : Int)) % (2 ^ 64 : Int) = a at hnn
  obtain ⟨k, rfl⟩ := Int.eq_ofNat_of_zero_le hnn
  norm_cast

/-- Comparison of two pointers into the address space is comparison of positions. -/
theorem ptr_le_of_valid (S : Nat) (first last : Int) (hS : 1 ≤ S) (hf0 : 0 ≤ first)
    (hl0 : 0 ≤ last) (hf : first * (S : Int) < 2 ^ 64) (hl : last * (S : Int) < 2 ^ 64) :
    ptr_le S first last = decide (first ≤ last) := by
  have hSpos : (0 : Int) < (S : Int) := by exact_mod_cast hS
  have h1 := address_of_valid S first hf0 hf
  have h2 := address_of_valid S last hl0 hl
  unfold ptr_le
  have hiff : address S first ≤ address S last ↔ first ≤ last := by
    rw [← Int.ofNat_le, h1, h2]
    exact mul_le_mul_right hSpos
  simp only [hiff]

/-- Subtraction of two pointers into one object of at most `PTRDIFF_MAX` bytes
is subtraction of positions. -/
theorem ptr_diff_of_valid (S : Nat) (first last : Int) (hS : 1 ≤ S) (hf0 : 0 ≤ first)
    (hle : first ≤ last) (hl : last * (S : Int) < 2 ^ 64)
    (hd : (last - first) * (S : Int) < 2 ^ 63) :
    ptr_diff S last first = last - first := by
  have hSpos : (0 : Int) < (S : Int) := by exact_mod_cast hS
  have hl0 : 0 ≤ last := le_trans hf0 hle
  have hf : first * (S : Int) < 2 ^ 64 :=
    lt_of_le_of_lt (mul_le_mul_of_nonneg_right hle (le_of_lt hSpos)) hl
  have hdn : 0 ≤ (last - first) * (S : Int) := mul_nonneg (by omega) (le_of_lt hSpos)
  unfold ptr_diff
  rw [address_of_valid S first hf0 hf, address_of_valid S last hl0 hl, ← Int.sub_mul]
  have hp : to_ptrdiff_t ((last - first) * (S : Int)) = (last - first) * (S : Int) := by
    unfold to_ptrdiff_t
    generalize (last - first) * (S : Int) = x at hd hdn
    norm_num at hd ⊢
    omega
  rw [hp]
  exact Int.mul_tdiv_cancel _ (ne_of_gt hSpos)

/-- A distance of positions is at most the byte distance. -/
theorem le_mul_sizeof (S : Nat) (d : Int) (hS : 1 ≤ S) (hd : 0 ≤ d) : d ≤ d * (S : Int) := by
  have hS1 : (1 : Int) ≤ (S : Int) := by exact_mod_cast hS
  calc d = d * 1 := (mul_one d).symm
    _ ≤ d * (S : Int) := mul_le_mul_of_nonneg_left hS1 hd

namespace contiguous_view

/-- The two-position constructor on pointers into one existing object: the
count passed on is `last - first`, and the second check compares it with the
length as a `ptrdiff_t`. -/
theorem ctor_range_of_valid (S Extent : Nat) (first last : Int) (hS : 1 ≤ S) (hf0 : 0 ≤ first)
    (hle : first ≤ last) (hl : last * (S : Int) < 2 ^ 64)
    (hd : (last - first) * (S : Int) < 2 ^ 63) :
    ctor_range S Extent first last =
      (ctor_count Extent first (last - first).toNat).bind fun v =>
        (runtime_assert (decide (last - first ≤ to_ptrdiff_t (v.size : Int))) "no").bind
          fun _ => .ok v := by
  have hSpos : (0 : Int) < (S : Int) := by exact_mod_cast hS
  have hl0 : 0 ≤ last := le_trans hf0 hle
  have hf : first * (S : Int) < 2 ^ 64 :=
    lt_of_le_of_lt (mul_le_mul_of_nonneg_right hle (le_of_lt hSpos)) hl
  have hdd : last - first < 2 ^ 63 :=
    lt_of_le_of_lt (le_mul_sizeof S _ hS (by omega)) hd
  have hts : to_size_t (last - first) = (last - first).toNat := by
    unfold to_size_t
    norm_num at hdd ⊢
    omega
  unfold ctor_range distance
  rw [ptr_diff_of_valid S first last hS hf0 hle hl hd, ptr_le_of_valid S first last hS hf0 hl0 hf hl,
    hts]
  simp only [hle, decide_True, Bool.true_and]

theorem sizer_size_dynamic (n : Nat) : (sizer.dynamic n).size = n := rfl

theorem sizer_size_fixed (n : Nat) : (sizer.fixed n).size = n := rfl

theorem size_mk (a : Int) (s : sizer) : (⟨a, s⟩ : contiguous_view).size = s.size := rfl

theorem within_mk (v : contiguous_view) (a : Int) (s : sizer) :
    within ⟨a, s⟩ v ↔ (v._first ≤ a ∧ a + (s.size : Int) ≤ v._first + (v.size : Int)) := Iff.rfl

/-- Constructing with the extent equal to the count never fails. -/
theorem ctor_count_self (Count : Nat) (a : Int) :
    ctor_count Count a Count = .ok ⟨a, sizer.ctor Count Count⟩ := by
  rw [ctor_count_eq]
  by_cases h : Count = dynamic_extent
  · simp [h, sizer.ctor]
  · simp [h, sizer.ctor]

theorem sizer_ctor_self_size (Count : Nat) : (sizer.ctor Count Count).size = Count := by
  unfold sizer.ctor
  by_cases h : Count = dynamic_extent <;> simp [h, sizer.size]

/-- The two-position constructor at the dynamic extent, on pointers into one
existing object: it returns the view of length `last - first`. -/
theorem ctor_range_dynamic (S : Nat) (first last : Int) (hS : 1 ≤ S) (hf0 : 0 ≤ first)
    (hle : first ≤ last) (hl : last * (S : Int) < 2 ^ 64)
    (hd : (last - first) * (S : Int) < 2 ^ 63) :
    ctor_range S dynamic_extent first last = .ok ⟨first, sizer.dynamic (last - first).toNat⟩ := by
  have hdd : last - first < 2 ^ 63 :=
    lt_of_le_of_lt (le_mul_sizeof S _ hS (by omega)) hd
  have hp : last - first ≤ to_ptrdiff_t (((last - first).toNat : Nat) : Int) := by
    unfold to_ptrdiff_t
    norm_num at hdd ⊢
    omega
  rw [ctor_range_of_valid S _ first last hS hf0 hle hl hd, ctor_count_eq, if_pos rfl, bind_ok,
    runtime_assert_bind, size_mk, sizer_size_dynamic]
  simp only [hp, decide_True, if_true]

/-- The two-position constructor agrees with the count constructor on
`last - first` when the extent is dynamic or a static constant below `2^63`, the
pointers lying in one existing object. -/
theorem ctor_range_eq_ctor_count (S Extent : Nat) (first last : Int)
    (hE : Extent = dynamic_extent ∨ Extent < 2 ^ 63) (hS : 1 ≤ S) (hf0 : 0 ≤ first)
    (hle : first ≤ last) (hl : last * (S : Int) < 2 ^ 64)
    (hd : (last - first) * (S : Int) < 2 ^ 63) :
    ctor_range S Extent first last = ctor_count Extent first (last - first).toNat := by
  by_cases hdyn : Extent = dynamic_extent
  · rw [hdyn, ctor_range_dynamic S first last hS hf0 hle hl hd, ctor_count_eq, if_pos rfl]
  · have hE2 : Extent < 2 ^ 63 := by
      rcases hE with h | h
      · exact absurd h hdyn
      · exact h
    norm_num at hE2
    rw [ctor_range_of_valid S _ first last hS hf0 hle hl hd, ctor_count_eq]
    by_cases hc : (last - first).toNat ≤ Extent
    · have hp : last - first ≤ to_ptrdiff_t (Extent : Int) := by
        unfold to_ptrdiff_t
        norm_num
        omega
      rw [if_neg hdyn, if_pos hc, bind_ok, runtime_assert_bind, size_mk, sizer_size_fixed]
      simp only [hp, decide_True, if_true]
    · rw [if_neg hdyn, if_neg hc, bind_error]

/-- The run-time `subview` on a view over existing storage, the sum
`offset + count` fitting `size_t`, case by case. -/
theorem subview_eq (S : Nat) (v : contiguous_view) (offset count : Nat)
    (hs : over_storage S v) (hsum : count = dynamic_extent ∨ offset + count < 2 ^ 64) :
    v.subview S offset count =
      if count = dynamic_extent then
        if offset ≤ v.size then .ok ⟨v._first + offset, sizer.dynamic (v.size - offset)⟩
        else .error (failure.assertion_error "Offset < size.")
      else
        if offset + count ≤ v.size then .ok ⟨v._first + offset, sizer.dynamic count⟩
        else .error (failure.assertion_error "Size + Offset must be lower or equals than size.") := by
  obtain ⟨hS, hA, hend, hbytes⟩ := hs
  have hSnn : (0 : Int) ≤ (S : Int) := Int.ofNat_nonneg S
  have hbytes2 : (v.size : Int) * (S : Int) < 2 ^ 63 := by exact_mod_cast hbytes
  unfold subview
  rw [runtime_assert_bind, runtime_assert_bind]
  by_cases hc : count = dynamic_extent
  · rw [if_pos hc, if_pos hc]
    by_cases ho : offset ≤ v.size
    · have hd : (v._first + (v.size : Int) - (v._first + (offset : Int))) * (S : Int) < 2 ^ 63 :=
        lt_of_le_of_lt (mul_le_mul_of_nonneg_right (by omega) hSnn) hbytes2
      have hn : (v._first + (v.size : Int) - (v._first + (offset : Int))).toNat
          = v.size - offset := by omega
      rw [ctor_range_dynamic S _ _ hS (by omega) (by omega) hend hd, hn]
      simp only [ho, decide_True, if_true]
    · simp only [ho, decide_False, if_false, Bool.false_eq_true]
  · have hlt : offset + count < 2 ^ 64 := by
      rcases hsum with h | h
      · exact absurd h hc
      · exact h
    rw [if_neg hc, if_neg hc, Nat.mod_eq_of_lt hlt]
    by_cases ho : offset + count ≤ v.size
    · have hend2 : (v._first + (offset : Int) + (count : Int)) * (S : Int) < 2 ^ 64 :=
        lt_of_le_of_lt (mul_le_mul_of_nonneg_right (by omega) hSnn) hend
      have hd : (v._first + (offset : Int) + (count : Int) - (v._first + (offset : Int)))
          * (S : Int) < 2 ^ 63 :=
        lt_of_le_of_lt (mul_le_mul_of_nonneg_right (by omega) hSnn) hbytes2
      have hn : (v._first + (offset : Int) + (count : Int) - (v._first + (offset : Int))).toNat
          = count := by omega
      rw [ctor_range_dynamic S _ _ hS (by omega) (by omega) hend2 hd, hn]
      simp only [ho, decide_True, if_true]
    · simp only [ho, decide_False, if_false, Bool.false_eq_true]

/-- The run-time part of `first<Count>()`, case by case. -/
theorem first_tmpl_eq (v : contiguous_view) (Count : Nat) :
    v.first_tmpl Count =
      if Count ≤ v.size then .ok ⟨v._first, sizer.ctor Count Count⟩
      else .error (failure.assertion_error "") := by
  unfold first_tmpl begin
  rw [runtime_assert_bind, ctor_count_self]
  by_cases h : Count ≤ v.size <;> simp [h]

/-- The run-time part of `last<Count>()`, case by case. -/
theorem last_tmpl_eq (v : contiguous_view) (Count : Nat) :
    v.last_tmpl Count =
      if Count ≤ v.size then .ok ⟨v._first + (v.size : Int) - (Count : Int), sizer.ctor Count Count⟩
      else .error (failure.assertion_error "") := by
  unfold last_tmpl begin
  rw [runtime_assert_bind, ctor_count_self]
  by_cases h : Count ≤ v.size <;> simp [h]

/-- The run-time `first(count)`, case by case. -/
theorem first_eq (v : contiguous_view) (count : Nat) :
    v.first count =
      if count ≤ v.size then .ok ⟨v._first, sizer.dynamic count⟩
      else .error (failure.assertion_error "y") := by
  unfold first begin
  rw [runtime_assert_bind, ctor_count_eq]
  by_cases h : count ≤ v.size <;> simp [h]

/-- The run-time `last(count)`, case by case. -/
theorem last_eq (v : contiguous_view) (count : Nat) :
    v.last count =
      if count ≤ v.size then .ok ⟨v._first + (v.size : Int) - (count : Int), sizer.dynamic count⟩
      else .error (failure.assertion_error "") := by
  unfold last begin
  rw [runtime_assert_bind, ctor_count_eq]
  by_cases h : count ≤ v.size <;> simp [h]

/-- A prefix or suffix returned by the run-time or compile-time `first` / `last`
lies within its source. -/
theorem first_last_within_source (v w : contiguous_view) (count : Nat) :
    (v.first count = .ok w → within w v) ∧
    (v.last count = .ok w → within w v) ∧
    (v.first_tmpl count = .ok w → within w v) ∧
    (v.last_tmpl count = .ok w → within w v) := by
  rw [first_eq, last_eq, first_tmpl_eq, last_tmpl_eq]
  by_cases hc : count ≤ v.size
  · simp only [hc, if_true, Except.ok.injEq]
    refine ⟨?_, ?_, ?_, ?_⟩ <;> intro h <;> subst h <;> rw [within_mk] <;>
      simp only [sizer_ctor_self_size, sizer_size_dynamic] <;> omega
  · simp [hc]

/-- A view returned by the run-time `subview` of a view over existing storage
lies within its source when the count is omitted, or when `offset + count` fits
`size_t`. -/
theorem subview_within_source (S : Nat) (v w : contiguous_view) (offset count : Nat)
    (hs : over_storage S v) (hsum : count = dynamic_extent ∨ offset + count < 2 ^ 64)
    (h : v.subview S offset count = .ok w) : within w v := by
  rw [subview_eq S v offset count hs hsum] at h
  by_cases hc : count = dynamic_extent
  · by_cases ho : offset ≤ v.size
    · simp only [hc, if_true, ho, Except.ok.injEq] at h
      subst h
      rw [within_mk]
      simp only [sizer_size_dynamic]
      omega
    · simp [hc, ho] at h
  · by_cases ho : offset + count ≤ v.size
    · simp only [hc, if_false, ho, if_true, Except.ok.injEq] at h
      subst h
      rw [within_mk]
      simp only [sizer_size_dynamic]
      omega
    · simp [hc, ho] at h

/-- A view of static extent has its extent as length. -/
theorem size_eq_Extent_of_static (v : contiguous_view) (h : v.Extent ≠ dynamic_extent) :
    v.size = v.Extent := by
  obtain ⟨a, s⟩ := v
  cases s with
  | fixed n => rfl
  | dynamic n => exact absurd rfl h

/-- The two-position constructor at a static extent equal to the distance, on
pointers into one existing object. -/
theorem ctor_range_static_exact (S X : Nat) (first last : Int) (hX : X ≠ dynamic_extent)
    (hS : 1 ≤ S) (hf0 : 0 ≤ first) (hl : last * (S : Int) < 2 ^ 64)
    (hd : last - first = (X : Int)) (hb : (X : Int) * (S : Int) < 2 ^ 63) :
    ctor_range S X first last = .ok ⟨first, sizer.fixed X⟩ := by
  have hle : first ≤ last := by omega
  have hx : (X : Int) < 2 ^ 63 :=
    lt_of_le_of_lt (le_mul_sizeof S _ hS (Int.ofNat_nonneg X)) hb
  have hp : last - first ≤ to_ptrdiff_t (X : Int) := by
    unfold to_ptrdiff_t
    norm_num at hx ⊢
    omega
  have hn : (last - first).toNat = X := by omega
  rw [ctor_range_of_valid S _ first last hS hf0 hle hl (by rw [hd]; exact hb), hn, ctor_count_eq]
  rw [if_neg hX, if_pos (le_refl X), bind_ok, runtime_assert_bind, size_mk, sizer_size_fixed]
  simp only [hp, decide_True, if_true]

/-- The length of a view over existing storage, and its extent, are `size_t`
values below `2 ^ 63`. -/
theorem size_lt_of_over_storage (S : Nat) (v : contiguous_view) (hs : over_storage S v) :
    v.size < 2 ^ 63 := by
  obtain ⟨hS, _, _, hbytes⟩ := hs
  exact lt_of_le_of_lt (Nat.le_mul_of_pos_right _ hS) hbytes

/-- The run-time part of `subview<Offset>()`, the count omitted, on a view over
existing storage. -/
theorem subview_tmpl_remainder_eq (S : Nat) (v : contiguous_view) (Offset : Nat)
    (hs : over_storage S v) :
    v.subview_tmpl S Offset dynamic_extent =
      if Offset ≤ v.size then
        .ok ⟨v._first + Offset,
          if v.Extent = dynamic_extent then sizer.dynamic (v.size - Offset)
          else sizer.fixed (v.Extent - Offset)⟩
      else .error (failure.assertion_error "Offset < size.") := by
  have hsize := size_lt_of_over_storage S v hs
  obtain ⟨hS, hA, hend, hbytes⟩ := hs
  have hSnn : (0 : Int) ≤ (S : Int) := Int.ofNat_nonneg S
  have hbytes2 : (v.size : Int) * (S : Int) < 2 ^ 63 := by exact_mod_cast hbytes
  norm_num at hsize
  unfold subview_tmpl
  rw [if_pos rfl, runtime_assert_bind]
  by_cases ho : Offset ≤ v.size
  · simp only [ho, decide_True, if_true]
    have hd : (v._first + (v.size : Int) - (v._first + (Offset : Int))) * (S : Int) < 2 ^ 63 :=
      lt_of_le_of_lt (mul_le_mul_of_nonneg_right (by omega) hSnn) hbytes2
    by_cases hdyn : v.Extent = dynamic_extent
    · have hn : (v._first + (v.size : Int) - (v._first + (Offset : Int))).toNat
          = v.size - Offset := by omega
      rw [if_pos hdyn, if_pos hdyn, ctor_range_dynamic S _ _ hS (by omega) (by omega) hend hd,
        hn]
    · have hsz := size_eq_Extent_of_static v hdyn
      have hX : (v.Extent + 2 ^ 64 - Offset) % 2 ^ 64 = v.Extent - Offset := by
        rw [← hsz]
        norm_num
        omega
      have hXd : v.Extent - Offset ≠ dynamic_extent := by
        rw [← hsz, dynamic_extent_eq]
        omega
      have hdist : v.«end» - (v._first + (Offset : Int)) = ((v.Extent - Offset : Nat) : Int) := by
        unfold «end»
        rw [← hsz]
        omega
      have hb : ((v.Extent - Offset : Nat) : Int) * (S : Int) < 2 ^ 63 := by
        rw [← hdist]
        unfold «end»
        exact hd
      rw [if_neg hdyn, if_neg hdyn, hX,
        ctor_range_static_exact S _ _ _ hXd hS (by omega) (by unfold «end»; exact hend) hdist hb]
  · simp only [ho, decide_False, if_false, Bool.false_eq_true]

/-- The run-time part of `subview<Offset, Count>()`, the count given, the
template arguments having passed the `static_assert`s. -/
theorem subview_tmpl_count_eq (S : Nat) (v : contiguous_view) (Offset Count : Nat)
    (hE : v.Extent < 2 ^ 64)
    (hsa : subview_tmpl_static_assert v.Extent Offset Count = true)
    (hc : Count ≠ dynamic_extent) :
    v.subview_tmpl S Offset Count =
      if Offset + Count ≤ v.size then .ok ⟨v._first + Offset, sizer.fixed Count⟩
      else .error (failure.assertion_error "Size And Offset must be lower") := by
  have hctor : sizer.ctor Count Count = sizer.fixed Count := by
    simp only [sizer.ctor, hc, if_false]
  have hsum : (Offset + Count) % 2 ^ 64 = Offset + Count := by
    unfold subview_tmpl_static_assert at hsa
    simp only [Bool.and_eq_true, decide_eq_true_eq, Bool.or_eq_true, beq_iff_eq, hc,
      false_or] at hsa
    obtain ⟨hs1, hs2⟩ := hsa
    norm_num at hs2 hE ⊢
    omega
  unfold subview_tmpl
  rw [if_neg hc, runtime_assert_bind, ctor_count_self, hsum, hctor]
  by_cases ho : Offset + Count ≤ v.size
  · simp only [ho, decide_True, if_true]
  · simp only [ho, decide_False, if_false, Bool.false_eq_true]

/-- The extent of a view over existing storage is a `size_t` value. -/
theorem Extent_lt_of_over_storage (S : Nat) (v : contiguous_view) (hs : over_storage S v) :
    v.Extent < 2 ^ 64 := by
  have hsize := size_lt_of_over_storage S v hs
  by_cases hdyn : v.Extent = dynamic_extent
  · rw [hdyn]
    decide
  · rw [← size_eq_Extent_of_static v hdyn]
    exact lt_trans hsize (by norm_num)

/-- A view returned by the compile-time `subview<Offset, Count>()` of a view over
existing storage lies within its source, the template arguments having passed
the `static_assert`s. -/
theorem subview_tmpl_within_source (S : Nat) (v w : contiguous_view) (Offset Count : Nat)
    (hs : over_storage S v)
    (hsa : subview_tmpl_static_assert v.Extent Offset Count = true)
    (h : v.subview_tmpl S Offset Count = .ok w) : within w v := by
  by_cases hc : Count = dynamic_extent
  · rw [hc, subview_tmpl_remainder_eq S v Offset hs] at h
    by_cases ho : Offset ≤ v.size
    · simp only [if_true, ho, Except.ok.injEq] at h
      subst h
      rw [within_mk]
      by_cases hdyn : v.Extent = dynamic_extent
      · simp only [hdyn, if_true, sizer_size_dynamic]
        omega
      · have hsz := size_eq_Extent_of_static v hdyn
        simp only [hdyn, if_false, sizer_size_fixed]
        omega
    · simp [ho] at h
  · rw [subview_tmpl_count_eq S v Offset Count (Extent_lt_of_over_storage S v hs) hsa hc] at h
    by_cases ho : Offset + Count ≤ v.size
    · simp only [ho, if_true, Except.ok.injEq] at h
      subst h
      rw [within_mk, sizer_size_fixed]
      omega
    · simp [ho] at h

/-! ### The two-position constructor at the limits of the address space -/

/-- A dynamic-extent view of `2^62` four-byte elements spans `2^64` bytes:
`_first + size()` holds the same machine address as `_first`, and the remainder
`subview(0)` returns a view of length `0`. -/
theorem subview_remainder_of_wrapping_view :
    address 4 (1000 + ((2 ^ 62 : Nat) : Int)) = address 4 1000 ∧
    subview 4 ⟨1000, sizer.dynamic (2 ^ 62)⟩ 0 dynamic_extent =
      .ok ⟨1000 + ((0 : Nat) : Int), sizer.dynamic 0⟩ := by
  constructor
  · decide
  · rfl

/-- At the static extent `2^61` of four-byte elements the byte distance from
`_first` to `end()` is `2^63`, a negative `ptrdiff_t`; the count passed on is
`2^64 - 2^61` and `subview<0>()` fails in the delegated constructor. -/
theorem subview_tmpl_remainder_of_large_static_extent :
    ptr_diff 4 (1000 + ((2 ^ 61 : Nat) : Int)) 1000 = -(2 ^ 61) ∧
    to_size_t (ptr_diff 4 (1000 + ((2 ^ 61 : Nat) : Int)) 1000) = 2 ^ 64 - 2 ^ 61 ∧
    subview_tmpl 4 ⟨1000, sizer.fixed (2 ^ 61)⟩ 0 dynamic_extent =
      .error (failure.assertion_error "no") := by
  refine ⟨by decide, by decide, rfl⟩

/-- The slice that the run-time `subview(2^64 - 2, 3)` returns on the view of
static extent `3` starts at the machine address two elements before the source. -/
theorem subview_overflow_address :
    address sizeof_element (view3_static._first + 18446744073709551614)
      = address sizeof_element (view3_static._first - 2) ∧
    address sizeof_element (view3_static._first + 18446744073709551614)
      < address sizeof_element view3_static._first := by
  constructor <;> decide

end contiguous_view

end ContiguousView

namespace ContiguousView

open contiguous_view

/-! ## Element access -/

/-- C5: for a view of length `L` at address `A` and every index `i`,
`operator[](i)` returns exactly when `i < L`, and then designates the element at
`A + i`; for every `i >= L` (so also for `size_t(-1)`) it fails with the
assertion primitive's error. -/
theorem C5_operator_index (v : contiguous_view) (i : Nat) :
    (∀ a, v.operator_index i = .ok a ↔ (i < v.size ∧ a = v._first + i)) ∧
    (succeeds (v.operator_index i) = true ↔ i < v.size) ∧
    (isBoundsError (v.operator_index i) = true ↔ v.size ≤ i) ∧
    (isBoundsError (v.operator_index dynamic_extent) = true ↔ v.size ≤ dynamic_extent) := by
  have key : ∀ j : Nat, v.operator_index j =
      if j < v.size then .ok (v._first + j) else .error (failure.assertion_error "fefe") := by
    intro j
    unfold operator_index
    rw [runtime_assert_bind]
    by_cases h : j < v.size <;> simp [h]
  refine ⟨?_, ?_, ?_, ?_⟩
  · intro a
    rw [key]
    by_cases h : i < v.size
    · simp [h, eq_comm]
    · simp [h]
  · rw [key]
    by_cases h : i < v.size <;> simp [h, succeeds]
  · rw [key]
    by_cases h : i < v.size
    · simp [h, isBoundsError]
    · simp [h, isBoundsError, Nat.le_of_not_lt h]
  · rw [key]
    by_cases h : dynamic_extent < v.size
    · simp [h, isBoundsError]
    · simp [h, isBoundsError, Nat.le_of_not_lt h]

/-- C6: `front()` and `back()` fail with the assertion primitive's error exactly
when the length is `0`; on a non-empty view `front()` designates address `A` and
`back()` address `A + L - 1`. -/
theorem C6_front_back (v : contiguous_view) :
    (isBoundsError v.front = true ↔ v.size = 0) ∧
    (isBoundsError v.back = true ↔ v.size = 0) ∧
    (∀ a, v.front = .ok a ↔ (0 < v.size ∧ a = v._first)) ∧
    (∀ a, v.back = .ok a ↔ (0 < v.size ∧ a = v._first + (v.size : Int) - 1)) := by
  have hf : v.front = if 0 < v.size then .ok v._first else .error (failure.assertion_error "") := by
    unfold front
    rw [runtime_assert_bind]
    by_cases h : 0 < v.size <;> simp [h]
  have hb : v.back =
      if 0 < v.size then .ok (v._first + (v.size : Int) - 1) else .error (failure.assertion_error "") := by
    unfold back empty
    rw [runtime_assert_bind]
    by_cases h : v.size = 0
    · simp [h]
    · have h0 : 0 < v.size := Nat.pos_of_ne_zero h
      simp [h, h0]
  rw [hf, hb]
  by_cases h : 0 < v.size
  · have h0 : v.size ≠ 0 := Nat.pos_iff_ne_zero.mp h
    simp [h, h0, isBoundsError, eq_comm]
  · have h0 : v.size = 0 := by omega
    simp [h0, isBoundsError]

/-! ## Run-time prefix and suffix -/

/-- C7: the run-time `first(k)` and `last(k)` fail with the assertion primitive's
error exactly when `k > L`; when `k <= L`, `first(k)` is the dynamic-extent view
`(A, k)` and `last(k)` the dynamic-extent view `(A + L - k, k)`. -/
theorem C7_first_last (v : contiguous_view) (k : Nat) :
    (isBoundsError (v.first k) = true ↔ v.size < k) ∧
    (isBoundsError (v.last k) = true ↔ v.size < k) ∧
    (∀ w, v.first k = .ok w ↔ (k ≤ v.size ∧ w = ⟨v._first, sizer.dynamic k⟩)) ∧
    (∀ w, v.last k = .ok w ↔
      (k ≤ v.size ∧ w = ⟨v._first + (v.size : Int) - (k : Int), sizer.dynamic k⟩)) := by
  have hf : v.first k =
      if k ≤ v.size then .ok ⟨v._first, sizer.dynamic k⟩ else .error (failure.assertion_error "y") := by
    unfold first begin
    rw [runtime_assert_bind, ctor_count_eq]
    by_cases h : k ≤ v.size <;> simp [h]
  have hl : v.last k =
      if k ≤ v.size then .ok ⟨v._first + (v.size : Int) - (k : Int), sizer.dynamic k⟩
      else .error (failure.assertion_error "") := by
    unfold last begin
    rw [runtime_assert_bind, ctor_count_eq]
    by_cases h : k ≤ v.size <;> simp [h]
  rw [hf, hl]
  by_cases h : k ≤ v.size
  · have h1 : ¬ v.size < k := Nat.not_lt.mpr h
    simp [h, h1, isBoundsError, eq_comm]
  · have h1 : v.size < k := Nat.lt_of_not_le h
    simp [h, h1, isBoundsError]

/-! ## Construction from a position and a count -/

/-- C9: `Construct(start, count)` fails with the assertion primitive's error
exactly when the extent is a static constant `N` and `count > N`; in every other
case it returns, and with a dynamic extent it returns for every count. -/
theorem C9_ctor_count_failure (Extent : Nat) (start : Int) (count : Nat) :
    (isBoundsError (ctor_count Extent start count) = true ↔
      (Extent ≠ dynamic_extent ∧ Extent < count)) ∧
    (succeeds (ctor_count Extent start count) = true ↔
      ¬ (Extent ≠ dynamic_extent ∧ Extent < count)) ∧
    succeeds (ctor_count dynamic_extent start count) = true := by
  rw [ctor_count_eq, ctor_count_eq]
  by_cases hE : Extent = dynamic_extent
  · simp [hE, isBoundsError, succeeds]
  · by_cases hc : count ≤ Extent
    · have h1 : ¬ Extent < count := Nat.not_lt.mpr hc
      simp [hE, hc, h1, isBoundsError, succeeds]
    · have h1 : Extent < count := Nat.lt_of_not_le hc
      simp [hE, hc, h1, isBoundsError, succeeds]

/-- C8 (counterexample): with the static extent `3`, `Construct(start, 2)` returns,
and the view it returns has length `3`, not the count `2`. -/
theorem C8_counterexample :
    ctor_count 3 1000 2 = .ok ⟨1000, sizer.fixed 3⟩ ∧
    (⟨1000, sizer.fixed 3⟩ : contiguous_view).size ≠ 2 := by
  constructor
  · rfl
  · decide

/-- C8 (amended): whenever `Construct(start, count)` returns, the view has address
`start` and the requested extent; its length is `count` for the dynamic extent
and the static constant `N` for a static extent `N`, where `count <= N`. -/
theorem C8_ctor_count_result (Extent : Nat) (start : Int) (count : Nat) (w : contiguous_view)
    (h : ctor_count Extent start count = .ok w) :
    w._first = start ∧ w.Extent = Extent ∧
    w.size = (if Extent = dynamic_extent then count else Extent) ∧ count ≤ w.size := by
  rw [ctor_count_eq] at h
  by_cases hE : Extent = dynamic_extent
  · simp only [hE, if_true, Except.ok.injEq] at h
    subst h
    simp [hE, contiguous_view.Extent, size, sizer.Ext, sizer.size]
  · by_cases hc : count ≤ Extent
    · simp only [hE, hc, if_true, if_false, Except.ok.injEq] at h
      subst h
      simp [hE, hc, contiguous_view.Extent, size, sizer.Ext, sizer.size]
    · simp [hE, hc] at h

/-- C8 (witness): the amended statement at extent `3`, start `1000`, count `2`. -/
theorem C8_ctor_count_result_witness :
    ctor_count 3 1000 2 = .ok ⟨1000, sizer.fixed 3⟩ ∧
    ((⟨1000, sizer.fixed 3⟩ : contiguous_view)._first = 1000 ∧
      (⟨1000, sizer.fixed 3⟩ : contiguous_view).Extent = 3 ∧
      (⟨1000, sizer.fixed 3⟩ : contiguous_view).size = (if 3 = dynamic_extent then 2 else 3) ∧
      2 ≤ (⟨1000, sizer.fixed 3⟩ : contiguous_view).size) :=
  ⟨rfl, C8_ctor_count_result 3 1000 2 ⟨1000, sizer.fixed 3⟩ rfl⟩

/-! ## Conversion between extents -/

/-- C1 (counterexample): a dynamic-extent view of length `2` converts to the static
extent `3` without failure, although `2 ≠ 3`. -/
theorem C1_counterexample :
    ¬ (succeeds (ctor_convert 3 ⟨1000, sizer.dynamic 2⟩) = true ↔ (2 : Nat) = 3) := by
  decide

/-- C1 (amended): converting a dynamic-extent view of length `L` at address `A`
into a view of static extent `K` returns exactly when `L <= K`, giving the view
of extent `K` at `A`; when `L > K` the bounds assertion fails inside the
`noexcept` constructor and the program terminates. -/
theorem C1_convert_dynamic_to_static (A : Int) (L K : Nat) (hK : K ≠ dynamic_extent) :
    ctor_convert K ⟨A, sizer.dynamic L⟩ =
      (if L ≤ K then .ok ⟨A, sizer.fixed K⟩ else .error failure.terminate) ∧
    (succeeds (ctor_convert K ⟨A, sizer.dynamic L⟩) = true ↔ L ≤ K) := by
  have key : ctor_convert K ⟨A, sizer.dynamic L⟩ =
      (if L ≤ K then .ok ⟨A, sizer.fixed K⟩ else .error failure.terminate) := by
    unfold ctor_convert
    simp only [runtime_assert_bind, sizer.ctor, hK, if_false, size, sizer.size, begin]
    by_cases h : L ≤ K <;> simp [h, noexcept]
  refine ⟨key, ?_⟩
  rw [key]
  by_cases h : L ≤ K <;> simp [h, succeeds]

/-- C1 (witness): the amended statement at `A = 1000`, `L = 3`, `K = 3`. -/
theorem C1_convert_dynamic_to_static_witness :
    (3 : Nat) ≠ dynamic_extent ∧
    (ctor_convert 3 ⟨1000, sizer.dynamic 3⟩ =
        (if 3 ≤ 3 then .ok ⟨1000, sizer.fixed 3⟩ else .error failure.terminate) ∧
      (succeeds (ctor_convert 3 ⟨1000, sizer.dynamic 3⟩) = true ↔ 3 ≤ 3)) :=
  ⟨by decide, C1_convert_dynamic_to_static 1000 3 3 (by decide)⟩

/-! ## Run-time `subview` -/

/-- C3: on a view over existing storage of length `N` starting at address `A`,
for `offset + count <= N` the run-time `subview(offset, count)` returns the
dynamic-extent view with address `A + offset` and length `count`. -/
theorem C3_subview_result (S : Nat) (v : contiguous_view) (offset count : Nat)
    (hs : over_storage S v) (h : offset + count ≤ v.size) :
    v.subview S offset count = .ok ⟨v._first + offset, sizer.dynamic count⟩ := by
  have hsize := size_lt_of_over_storage S v hs
  have hcd : count ≠ dynamic_extent := by
    rw [dynamic_extent_eq]
    norm_num at hsize
    omega
  have hsum : offset + count < 2 ^ 64 := by
    norm_num at hsize ⊢
    omega
  rw [subview_eq S v offset count hs (Or.inr hsum), if_neg hcd, if_pos h]

/-- C3 (witness): the scenario `[10, 20, 30, 40, 50]`, `subview(2, 3)`, and
`subview(5, 0)` at the one-past-the-end address. -/
theorem C3_subview_result_witness :
    (over_storage sizeof_element view5_static ∧ 2 + 3 ≤ view5_static.size ∧
      view5_static.subview sizeof_element 2 3 =
        .ok ⟨view5_static._first + (2 : Nat), sizer.dynamic 3⟩) ∧
    (5 + 0 ≤ view5_static.size ∧
      view5_static.subview sizeof_element 5 0 =
        .ok ⟨view5_static._first + (5 : Nat), sizer.dynamic 0⟩) :=
  ⟨⟨by decide, by decide,
      C3_subview_result sizeof_element view5_static 2 3 (by decide) (by decide)⟩,
    ⟨by decide, C3_subview_result sizeof_element view5_static 5 0 (by decide) (by decide)⟩⟩

/-- C2 (failing input): on the view of length `3`, `subview(2^64 - 1, 1)` has
`offset > L` and `offset + count = 2^64 > L`, but the `size_t` sum wraps to `0`,
the check passes and a view is returned instead of the assertion primitive's error. -/
theorem C2_subview_sum_overflow :
    view3_dynamic.size = 3 ∧
    view3_dynamic.size < 18446744073709551615 ∧
    view3_dynamic.size < 18446744073709551615 + 1 ∧
    (1 : Nat) ≠ dynamic_extent ∧
    (18446744073709551615 + 1) % 2 ^ 64 = 0 ∧
    succeeds (view3_dynamic.subview sizeof_element 18446744073709551615 1) = true ∧
    isBoundsError (view3_dynamic.subview sizeof_element 18446744073709551615 1) = false := by
  refine ⟨by decide, by decide, by decide, by decide, by decide, by decide, by decide⟩

/-- C4 (failing input): on the view of static extent `3`, the run-time
`subview(2^64 - 2, 3)` passes its check (the `size_t` sum wraps to `1`) and
returns a view of length `3` that does not lie within the source. -/
theorem C4_subview_outside_source :
    view3_static.subview sizeof_element 18446744073709551614 3 =
      .ok ⟨view3_static._first + 18446744073709551614, sizer.dynamic 3⟩ ∧
    ¬ within ⟨view3_static._first + 18446744073709551614, sizer.dynamic 3⟩ view3_static := by
  constructor
  · rfl
  · decide

/-! ## Construction from two positions -/

/-- C10 (failing input): with the static extent `2^63` and the positions
`1000 <= 1001`, `Construct(first, last - first)` returns a view while
`Construct(first, last)` fails: the length converted to `ptrdiff_t` is negative. -/
theorem C10_ctor_range_large_static_extent :
    (1000 : Int) ≤ 1001 ∧
    to_ptrdiff_t ((9223372036854775808 : Nat) : Int) = -9223372036854775808 ∧
    ctor_count 9223372036854775808 1000 ((1001 : Int) - 1000).toNat =
      .ok ⟨1000, sizer.fixed 9223372036854775808⟩ ∧
    ctor_range sizeof_element 9223372036854775808 1000 1001 =
      .error (failure.assertion_error "no") := by
  refine ⟨by decide, by decide, ?_, ?_⟩
  · rfl
  · rfl

end ContiguousView

namespace ContiguousView

open contiguous_view

/-! ## Failure of the two-position constructor -/

/-- The count that the two-position constructor passes on exceeds every number
below the distance of two pointers of the address space, taken in order. -/
theorem lt_to_size_t_ptr_diff (S N : Nat) (first last : Int) (hS : 1 ≤ S) (hf1 : 1 ≤ first)
    (hl : last * (S : Int) < 2 ^ 64) (hgt : (N : Int) < last - first) :
    N < to_size_t (ptr_diff S last first) := by
  have hSpos : (0 : Int) < (S : Int) := by exact_mod_cast hS
  have hSnn : (0 : Int) ≤ (S : Int) := le_of_lt hSpos
  have hN : (0 : Int) ≤ (N : Int) := Int.ofNat_nonneg N
  have hle : first ≤ last := by omega
  have hf0 : 0 ≤ first := by omega
  have hl0 : 0 ≤ last := by omega
  have hf : first * (S : Int) < 2 ^ 64 :=
    lt_of_le_of_lt (mul_le_mul_of_nonneg_right hle hSnn) hl
  have hdS : last - first ≤ (last - first) * (S : Int) := le_mul_sizeof S _ hS (by omega)
  by_cases hx : (last - first) * (S : Int) < 2 ^ 63
  · rw [ptr_diff_of_valid S first last hS hf0 hle hl hx]
    have hdd : last - first < 2 ^ 63 := lt_of_le_of_lt hdS hx
    unfold to_size_t
    norm_num at hdd ⊢
    omega
  · have hxS : (last - first) * (S : Int) + (S : Int) ≤ last * (S : Int) := by
      have h1 : (last - first + 1) * (S : Int) ≤ last * (S : Int) :=
        mul_le_mul_of_nonneg_right (by omega) hSnn
      have h2 : (last - first + 1) * (S : Int) = (last - first) * (S : Int) + (S : Int) := by
        rw [Int.add_mul, Int.one_mul]
      rw [← h2]
      exact h1
    have hy0 : (0 : Int) ≤ 2 ^ 64 - (last - first) * (S : Int) := by omega
    have hq1 : (1 : Int) ≤ (2 ^ 64 - (last - first) * (S : Int)) / (S : Int) :=
      Int.le_ediv_of_mul_le hSpos (by omega)
    have hq2 : (2 ^ 64 - (last - first) * (S : Int)) / (S : Int) * (S : Int)
        ≤ 2 ^ 64 - (last - first) * (S : Int) := Int.ediv_mul_le _ (ne_of_gt hSpos)
    have hq3 : (2 ^ 64 - (last - first) * (S : Int)) / (S : Int)
        ≤ (2 ^ 64 - (last - first) * (S : Int)) / (S : Int) * (S : Int) :=
      le_mul_sizeof S _ hS (by omega)
    have hp : to_ptrdiff_t ((last - first) * (S : Int))
        = -(2 ^ 64 - (last - first) * (S : Int)) := by
      unfold to_ptrdiff_t
      have hx2 : (last - first) * (S : Int) < 2 ^ 64 := by omega
      generalize (last - first) * (S : Int) = x at hx hx2
      norm_num at hx hx2 ⊢
      omega
    unfold ptr_diff
    rw [address_of_valid S first hf0 hf, address_of_valid S last hl0 hl, ← Int.sub_mul, hp,
      Int.neg_tdiv, Int.tdiv_eq_ediv hy0 hSnn]
    unfold to_size_t
    generalize (2 ^ 64 - (last - first) * (S : Int)) / (S : Int) = q at hq1 hq2 hq3
    generalize (last - first) * (S : Int) = x at hdS hx hq2 hq3 hy0
    generalize q * (S : Int) = r at hq2 hq3
    norm_num at hx hy0 hq2 ⊢
    omega

/-- C11: for every extent, `Construct(first, last)` on two pointers of the
address space fails with the assertion primitive's error whenever `last`
precedes `first`, and, for a static extent `N`, whenever `last - first > N`. -/
theorem C11_ctor_range_failure (S Extent : Nat) (first last : Int) (hS : 1 ≤ S)
    (hf1 : 1 ≤ first) (hl0 : 0 ≤ last)
    (hf : first * (S : Int) < 2 ^ 64) (hl : last * (S : Int) < 2 ^ 64)
    (h : last < first ∨ (Extent ≠ dynamic_extent ∧ (Extent : Int) < last - first)) :
    isBoundsError (ctor_range S Extent first last) = true := by
  unfold ctor_range
  rw [ctor_count_eq]
  rcases h with h | ⟨hE, hgt⟩
  · have hle : ¬ first ≤ last := not_le.mpr h
    have hp : ptr_le S first last = false := by
      rw [ptr_le_of_valid S first last hS (by omega) hl0 hf hl]
      simp only [hle, decide_False]
    by_cases hE : Extent = dynamic_extent
    · rw [if_pos hE, bind_ok, hp, Bool.false_and, runtime_assert_bind]
      rfl
    · by_cases hc : to_size_t (ptr_diff S last first) ≤ Extent
      · rw [if_neg hE, if_pos hc, bind_ok, hp, Bool.false_and, runtime_assert_bind]
        rfl
      · rw [if_neg hE, if_neg hc, bind_error]
        rfl
  · have hc : ¬ to_size_t (ptr_diff S last first) ≤ Extent :=
      Nat.not_le.mpr (lt_to_size_t_ptr_diff S Extent first last hS hf1 hl hgt)
    rw [if_neg hE, if_neg hc, bind_error]
    rfl

/-- C11 (witness): the tests `assert_test.range_constructor` (positions swapped, the
dynamic and the static extent `3`) and `assert_test.range_constructor_static`
(extent `2`, three elements). -/
theorem C11_ctor_range_failure_witness :
    isBoundsError (ctor_range sizeof_element dynamic_extent 1003 1000) = true ∧
    isBoundsError (ctor_range sizeof_element 3 1003 1000) = true ∧
    isBoundsError (ctor_range sizeof_element 2 1000 1003) = true :=
  ⟨C11_ctor_range_failure sizeof_element dynamic_extent 1003 1000 (by decide) (by decide)
      (by decide) (by decide) (by decide) (Or.inl (by decide)),
    C11_ctor_range_failure sizeof_element 3 1003 1000 (by decide) (by decide) (by decide)
      (by decide) (by decide) (Or.inl (by decide)),
    C11_ctor_range_failure sizeof_element 2 1000 1003 (by decide) (by decide) (by decide)
      (by decide) (by decide) (Or.inr ⟨by decide, by decide⟩)⟩

/-! ## The converting constructor: constraint, result, explicitness -/

/-- When the source element type `U` is the non-const version of the target
element type, the `requires` clause rejects every pair of distinct static extents. -/
theorem ctor_convert_requires_rejects (T U : elem_type) (Extent N : Nat)
    (hU : U = remove_const_t T) (hN : N ≠ dynamic_extent) (hE : Extent ≠ dynamic_extent)
    (hne : N ≠ Extent) : ctor_convert_requires T Extent U N = false := by
  simp [ctor_convert_requires, is_same_v, hU, hN, hE, hne]

/-- C12 (failing input): from `contiguous_view<const element, 2>` to
`contiguous_view<const element, 3>` the `requires` clause holds, because the
source element type `const element` differs from `std::remove_const_t` of the
target; the constructor is then available (explicitly) and at run time returns a
view of extent `3` over the two elements. -/
theorem C12_requires_accepts_const_source :
    (2 : Nat) ≠ 3 ∧ (2 : Nat) ≠ dynamic_extent ∧ (3 : Nat) ≠ dynamic_extent ∧
    is_same_v const_element (remove_const_t const_element) = false ∧
    ctor_convert_requires const_element 3 const_element 2 = true ∧
    ctor_convert_requires element 3 element 2 = false ∧
    ctor_convert 3 ⟨1000, sizer.fixed 2⟩ = .ok ⟨1000, sizer.fixed 3⟩ := by
  refine ⟨by decide, by decide, by decide, by decide, by decide, by decide, rfl⟩

/-- C13: converting a view of static extent `N` at address `A` to the dynamic
extent is accepted by the `requires` clause for all element types, is implicit,
never fails, and gives the dynamic-extent view with the same address and length `N`. -/
theorem C13_convert_static_to_dynamic (A : Int) (N : Nat) (T U : elem_type) :
    ctor_convert dynamic_extent ⟨A, sizer.fixed N⟩ = .ok ⟨A, sizer.dynamic N⟩ ∧
    succeeds (ctor_convert dynamic_extent ⟨A, sizer.fixed N⟩) = true ∧
    (⟨A, sizer.dynamic N⟩ : contiguous_view).data = (⟨A, sizer.fixed N⟩ : contiguous_view).data ∧
    (⟨A, sizer.dynamic N⟩ : contiguous_view).size = (⟨A, sizer.fixed N⟩ : contiguous_view).size ∧
    (⟨A, sizer.dynamic N⟩ : contiguous_view).size = N ∧
    (⟨A, sizer.dynamic N⟩ : contiguous_view).Extent = dynamic_extent ∧
    ctor_convert_requires T dynamic_extent U N = true ∧
    ctor_convert_explicit dynamic_extent N = false := by
  have key : ctor_convert dynamic_extent ⟨A, sizer.fixed N⟩ = .ok ⟨A, sizer.dynamic N⟩ := by
    unfold ctor_convert
    simp [runtime_assert_bind, sizer.ctor, size, sizer.size, begin, noexcept]
  refine ⟨key, ?_, rfl, rfl, rfl, rfl, ?_, ?_⟩
  · rw [key]
    rfl
  · simp [ctor_convert_requires]
  · simp [ctor_convert_explicit]

/-! ## Remainder `subview` -/

/-- C14: on a view over existing storage of length `L` at address `A`, the
run-time `subview(offset)` with the count omitted (equal to `dynamic_extent`)
returns exactly when `offset <= L`, and then returns the dynamic-extent view
`(A + offset, L - offset)`; otherwise it fails with the assertion primitive's
error. -/
theorem C14_subview_remainder (S : Nat) (v : contiguous_view) (offset : Nat)
    (hs : over_storage S v) :
    (succeeds (v.subview S offset dynamic_extent) = true ↔ offset ≤ v.size) ∧
    (isBoundsError (v.subview S offset dynamic_extent) = true ↔ v.size < offset) ∧
    (∀ w, v.subview S offset dynamic_extent = .ok w ↔
      (offset ≤ v.size ∧ w = ⟨v._first + offset, sizer.dynamic (v.size - offset)⟩)) := by
  rw [subview_eq S v offset dynamic_extent hs (Or.inl rfl), if_pos rfl]
  by_cases ho : offset ≤ v.size
  · have h1 : ¬ v.size < offset := Nat.not_lt.mpr ho
    simp [ho, h1, succeeds, isBoundsError, eq_comm]
  · have h1 : v.size < offset := Nat.lt_of_not_le ho
    simp [ho, h1, succeeds, isBoundsError]

/-- C14 (witness): `subview(2, dynamic_extent)` on `[10, 20, 30, 40, 50]`. -/
theorem C14_subview_remainder_witness :
    over_storage sizeof_element view5_static ∧
    ((succeeds (view5_static.subview sizeof_element 2 dynamic_extent) = true ↔
        2 ≤ view5_static.size) ∧
     (isBoundsError (view5_static.subview sizeof_element 2 dynamic_extent) = true ↔
        view5_static.size < 2) ∧
     (∀ w, view5_static.subview sizeof_element 2 dynamic_extent = .ok w ↔
       (2 ≤ view5_static.size ∧
         w = ⟨view5_static._first + (2 : Nat), sizer.dynamic (view5_static.size - 2)⟩))) :=
  ⟨by decide, C14_subview_remainder sizeof_element view5_static 2 (by decide)⟩

/-! ## Compile-time slicing of a dynamic-extent view -/

/-- C15: on a dynamic-extent view of run-time length `L` at address `A`, with
template arguments accepted by the `static_assert`s: `subview<Offset, Count>()`
(`Count` not the sentinel) fails with the assertion primitive's error exactly
when `Offset + Count > L` and otherwise is `(A + Offset, Count)`;
`first<Count3>()` and `last<Count3>()` fail exactly when `Count3 > L` and
otherwise are `(A, Count3)` and `(A + L - Count3, Count3)`; and, the view being
over existing storage of elements of size `S`, `subview<Offset2>()` fails exactly
when `Offset2 > L` and otherwise is `(A + Offset2, L - Offset2)`. -/
theorem C15_tmpl_slices_of_dynamic_view (S : Nat) (A : Int)
    (L Offset Count Offset2 Count3 : Nat)
    (hsa : subview_tmpl_static_assert dynamic_extent Offset Count = true)
    (hC : Count ≠ dynamic_extent) :
    (isBoundsError (subview_tmpl S ⟨A, sizer.dynamic L⟩ Offset Count) = true ↔
      L < Offset + Count) ∧
    (∀ w, subview_tmpl S ⟨A, sizer.dynamic L⟩ Offset Count = .ok w ↔
      (Offset + Count ≤ L ∧ w = ⟨A + Offset, sizer.fixed Count⟩)) ∧
    (over_storage S ⟨A, sizer.dynamic L⟩ →
      (isBoundsError (subview_tmpl S ⟨A, sizer.dynamic L⟩ Offset2 dynamic_extent) = true ↔
        L < Offset2) ∧
      (∀ w, subview_tmpl S ⟨A, sizer.dynamic L⟩ Offset2 dynamic_extent = .ok w ↔
        (Offset2 ≤ L ∧ w = ⟨A + Offset2, sizer.dynamic (L - Offset2)⟩))) ∧
    (isBoundsError (first_tmpl ⟨A, sizer.dynamic L⟩ Count3) = true ↔ L < Count3) ∧
    (∀ w, first_tmpl ⟨A, sizer.dynamic L⟩ Count3 = .ok w ↔
      (Count3 ≤ L ∧ w = ⟨A, sizer.ctor Count3 Count3⟩)) ∧
    (isBoundsError (last_tmpl ⟨A, sizer.dynamic L⟩ Count3) = true ↔ L < Count3) ∧
    (∀ w, last_tmpl ⟨A, sizer.dynamic L⟩ Count3 = .ok w ↔
      (Count3 ≤ L ∧ w = ⟨A + (L : Int) - (Count3 : Int), sizer.ctor Count3 Count3⟩)) ∧
    (sizer.ctor Count3 Count3).size = Count3 ∧
    (sizer.fixed Count).size = Count ∧ (sizer.dynamic (L - Offset2)).size = L - Offset2 := by
  have hs : contiguous_view.size ⟨A, sizer.dynamic L⟩ = L := rfl
  have hf : contiguous_view._first ⟨A, sizer.dynamic L⟩ = A := rfl
  have hx : contiguous_view.Extent ⟨A, sizer.dynamic L⟩ = dynamic_extent := rfl
  have hxlt : contiguous_view.Extent ⟨A, sizer.dynamic L⟩ < 2 ^ 64 := by
    rw [hx]
    decide
  rw [subview_tmpl_count_eq S ⟨A, sizer.dynamic L⟩ Offset Count hxlt hsa hC,
    first_tmpl_eq, last_tmpl_eq, hs, hf]
  refine ⟨?_, ?_, ?_, ?_, ?_, ?_, ?_, sizer_ctor_self_size Count3, rfl, rfl⟩
  · by_cases h : Offset + Count ≤ L
    · simp [h, isBoundsError, Nat.not_lt.mpr h]
    · simp [h, isBoundsError, Nat.lt_of_not_le h]
  · intro w
    by_cases h : Offset + Count ≤ L <;> simp [h, eq_comm]
  · intro hst
    rw [subview_tmpl_remainder_eq S ⟨A, sizer.dynamic L⟩ Offset2 hst, hs, hf, if_pos hx]
    constructor
    · by_cases h : Offset2 ≤ L
      · simp [h, isBoundsError, Nat.not_lt.mpr h]
      · simp [h, isBoundsError, Nat.lt_of_not_le h]
    · intro w
      by_cases h : Offset2 ≤ L <;> simp [h, eq_comm]
  · by_cases h : Count3 ≤ L
    · simp [h, isBoundsError, Nat.not_lt.mpr h]
    · simp [h, isBoundsError, Nat.lt_of_not_le h]
  · intro w
    by_cases h : Count3 ≤ L <;> simp [h, eq_comm]
  · by_cases h : Count3 ≤ L
    · simp [h, isBoundsError, Nat.not_lt.mpr h]
    · simp [h, isBoundsError, Nat.lt_of_not_le h]
  · intro w
    by_cases h : Count3 ≤ L <;> simp [h, eq_comm]

/-- C15 (witness): the view of `make_array(10, 20, 30)` at the dynamic extent,
with `subview<1, 2>()`, `subview<4>()`, `subview<1>()` and `first<4>()`. -/
theorem C15_tmpl_slices_of_dynamic_view_witness :
    (subview_tmpl_static_assert dynamic_extent 1 2 = true ∧
      (2 : Nat) ≠ dynamic_extent ∧ over_storage sizeof_element view3_dynamic) ∧
    (∀ w, subview_tmpl sizeof_element ⟨1000, sizer.dynamic 3⟩ 1 2 = .ok w ↔
      (1 + 2 ≤ 3 ∧ w = ⟨(1000 : Int) + ((1 : Nat) : Int), sizer.fixed 2⟩)) ∧
    (isBoundsError (subview_tmpl sizeof_element ⟨1000, sizer.dynamic 3⟩ 4 dynamic_extent) = true ↔
      3 < 4) ∧
    (isBoundsError (first_tmpl ⟨1000, sizer.dynamic 3⟩ 4) = true ↔ 3 < 4) :=
  ⟨⟨by decide, by decide, by decide⟩,
    (C15_tmpl_slices_of_dynamic_view sizeof_element 1000 3 1 2 4 4 (by decide) (by decide)).2.1,
    ((C15_tmpl_slices_of_dynamic_view sizeof_element 1000 3 1 2 4 4 (by decide)
      (by decide)).2.2.1 (by decide)).1,
    (C15_tmpl_slices_of_dynamic_view sizeof_element 1000 3 1 2 4 4 (by decide)
      (by decide)).2.2.2.1⟩

/-! ## Byte view -/

theorem Extent_mk (a : Int) (s : sizer) : (⟨a, s⟩ : contiguous_view).Extent = s.Ext := rfl

theorem sizer_Ext_fixed (n : Nat) : (sizer.fixed n).Ext = n := rfl

theorem sizer_Ext_dynamic (n : Nat) : (sizer.dynamic n).Ext = dynamic_extent := rfl

/-- For a static extent the products `Extent * sizeof(T)` and `size() * sizeof(T)`
coincide, for the dynamic extent the count constructor accepts every count: the
constructor call inside `as_bytes` always returns. -/
theorem as_bytes_eq (v : contiguous_view) (S : Nat) :
    as_bytes S v = .ok ⟨v._first, sizer.ctor (fun_ v.Extent S) (size_bytes S v)⟩ := by
  have hc : size_bytes S v ≤ (sizer.ctor (fun_ v.Extent S) (size_bytes S v)).size := by
    unfold sizer.ctor
    by_cases hf : fun_ v.Extent S = dynamic_extent
    · simp only [hf, if_true, sizer_size_dynamic, le_refl]
    · simp only [hf, if_false, sizer_size_fixed]
      by_cases hd : v.Extent = dynamic_extent
      · exact absurd (by simp only [fun_, hd, ne_eq, not_true_eq_false, if_false]) hf
      · have hs := size_eq_Extent_of_static v hd
        simp only [fun_, ne_eq, hd, not_false_eq_true, if_true, size_bytes, hs, le_refl]
  unfold as_bytes ctor_count
  simp only [runtime_assert_bind, size_mk, hc, decide_True, if_true, begin]

theorem as_bytes_never_fails (v : contiguous_view) (S : Nat) :
    succeeds (as_bytes S v) = true := by
  rw [as_bytes_eq]
  rfl

/-- C16: for every view with address `A` and length `L` over elements of size
`S`, `as_bytes()` never fails and returns a byte view with address `A`, dynamic
when the source is dynamic; when the byte length `L * S` is a `size_t` value the
result has length `L * S`, and when the source has the static extent `N` the
result has the static extent `N * S` (`N * S` being a static extent, that is,
not the sentinel). -/
theorem C16_as_bytes (v : contiguous_view) (S : Nat) :
    succeeds (as_bytes S v) = true ∧
    ∃ w, as_bytes S v = .ok w ∧ w._first = v._first ∧
      (v.Extent = dynamic_extent → w.Extent = dynamic_extent) ∧
      (v.size * S < 2 ^ 64 →
        w.size = v.size * S ∧
        (v.Extent ≠ dynamic_extent → v.Extent * S ≠ dynamic_extent →
          w.Extent = v.Extent * S ∧ w.size_ = sizer.fixed (v.Extent * S))) := by
  refine ⟨as_bytes_never_fails v S, ?_⟩
  rw [as_bytes_eq]
  refine ⟨_, rfl, rfl, ?_, ?_⟩
  · intro hd
    have hf : fun_ v.Extent S = dynamic_extent := by
      simp only [fun_, hd, ne_eq, not_true_eq_false, if_false]
    rw [Extent_mk]
    simp only [sizer.ctor, hf, if_true, sizer_Ext_dynamic]
  · intro h
    have hsb : size_bytes S v = v.size * S := by
      unfold size_bytes
      exact Nat.mod_eq_of_lt h
    rw [hsb]
    constructor
    · rw [size_mk]
      unfold sizer.ctor
      by_cases hf : fun_ v.Extent S = dynamic_extent
      · simp only [hf, if_true, sizer_size_dynamic]
      · simp only [hf, if_false, sizer_size_fixed]
        by_cases hd : v.Extent = dynamic_extent
        · exact absurd (by simp only [fun_, hd, ne_eq, not_true_eq_false, if_false]) hf
        · have hs := size_eq_Extent_of_static v hd
          rw [hs] at h
          simp only [fun_, ne_eq, hd, not_false_eq_true, if_true, hs]
          exact Nat.mod_eq_of_lt h
    · intro hd hne
      have hs := size_eq_Extent_of_static v hd
      rw [hs] at h
      have hf : fun_ v.Extent S = v.Extent * S := by
        simp only [fun_, ne_eq, hd, not_false_eq_true, if_true]
        exact Nat.mod_eq_of_lt h
      have hctor : sizer.ctor (fun_ v.Extent S) (v.size * S) = sizer.fixed (v.Extent * S) := by
        simp only [sizer.ctor, hf, hne, if_false]
      rw [Extent_mk, hctor]
      exact ⟨rfl, rfl⟩

/-- C16 (witness): the test `common_tests.as_bytes`, two 4-byte integers viewed
with the static extent `2`: the byte view has the static extent `8`. -/
theorem C16_as_bytes_witness :
    (⟨1000, sizer.fixed 2⟩ : contiguous_view).size * 4 < 2 ^ 64 ∧
    as_bytes 4 ⟨1000, sizer.fixed 2⟩ = .ok ⟨1000, sizer.fixed 8⟩ ∧
    succeeds (as_bytes 4 ⟨1000, sizer.fixed 2⟩) = true :=
  ⟨by decide, rfl, (C16_as_bytes ⟨1000, sizer.fixed 2⟩ 4).1⟩

/-! ## Extent storage and the default constructor -/

/-- C17: for a static extent `N` the storage constructed from any count `c` reads
back `N`, so a view of static extent `N` reports `size() == N` whichever
constructor made it; for the dynamic extent the storage constructed from `c`
reads back `c`. -/
theorem C17_sizer_readback (N c : Nat) (hN : N ≠ dynamic_extent) :
    (sizer.ctor N c).size = N ∧
    (sizer.ctor dynamic_extent c).size = c ∧
    (∀ a w, ctor_count N a c = .ok w → w.size = N) ∧
    (∀ S f l w, ctor_range S N f l = .ok w → w.size = N) ∧
    (∀ other w, ctor_convert N other = .ok w → w.size = N) ∧
    (ctor_default_requires N = true → (ctor_default N).size = N) := by
  have hfix : ∀ k, sizer.ctor N k = sizer.fixed N := by
    intro k
    simp [sizer.ctor, hN]
  have hcount : ∀ a k w, ctor_count N a k = .ok w → w.size = N := by
    intro a k w h
    rw [ctor_count_eq] at h
    by_cases hc : k ≤ N
    · simp only [hN, if_false, hc, if_true, Except.ok.injEq] at h
      subst h
      rfl
    · simp [hN, hc] at h
  refine ⟨?_, ?_, ?_, ?_, ?_, ?_⟩
  · rw [hfix]
    rfl
  · simp [sizer.ctor, sizer.size]
  · intro a w h
    exact hcount a c w h
  · intro S f l w h
    unfold ctor_range at h
    cases hcc : ctor_count N f (to_size_t (ptr_diff S l f)) with
    | error e => simp [hcc, Except.bind] at h
    | ok u =>
      have hu := hcount _ _ _ hcc
      rw [hcc] at h
      change ((runtime_assert _ "no").bind fun _ => Except.ok u) = Except.ok w at h
      rw [runtime_assert_bind] at h
      split at h
      · simp only [Except.ok.injEq] at h
        subst h
        exact hu
      · cases h
  · intro other w h
    unfold ctor_convert at h
    simp only [runtime_assert_bind, hfix, size_mk, sizer_size_fixed] at h
    by_cases hc : other.size ≤ N
    · simp only [hc, decide_True, if_true, noexcept, Except.ok.injEq] at h
      subst h
      rfl
    · simp [hc, noexcept] at h
  · intro _
    unfold ctor_default
    rw [hfix]
    rfl

/-- C17 (witness): the static extent `3` with the count `2`. -/
theorem C17_sizer_readback_witness :
    (3 : Nat) ≠ dynamic_extent ∧ (sizer.ctor 3 2).size = 3 ∧
    (sizer.ctor dynamic_extent 2).size = 2 :=
  ⟨by decide, (C17_sizer_readback 3 2 (by decide)).1, (C17_sizer_readback 3 2 (by decide)).2.1⟩

/-- C18: a default-constructed view (the extent being dynamic or `0`) has the
null address, length `0`, `size_bytes` `0` and is empty; `front()`, `back()` and
`operator[](i)` fail on it with the assertion primitive's error for every `i`. -/
theorem C18_default_constructed (Extent : Nat) (h : ctor_default_requires Extent = true)
    (S i : Nat) :
    (ctor_default Extent).data = nullptr ∧
    (ctor_default Extent).size = 0 ∧
    (ctor_default Extent).size_bytes S = 0 ∧
    (ctor_default Extent).empty = true ∧
    isBoundsError (ctor_default Extent).front = true ∧
    isBoundsError (ctor_default Extent).back = true ∧
    isBoundsError ((ctor_default Extent).operator_index i) = true := by
  have hsize : (ctor_default Extent).size = 0 := by
    unfold ctor_default_requires at h
    simp only [Bool.or_eq_true, beq_iff_eq] at h
    unfold ctor_default
    rw [size_mk]
    rcases h with h | h
    · simp [sizer.ctor, h, sizer.size]
    · have h0 : (0 : Nat) ≠ dynamic_extent := by decide
      subst h
      simp [sizer.ctor, h0, sizer.size]
  refine ⟨rfl, hsize, ?_, ?_, ?_, ?_, ?_⟩
  · simp [size_bytes, hsize]
  · simp [empty, hsize]
  · unfold front
    simp [runtime_assert_bind, hsize, isBoundsError]
  · unfold back
    simp [runtime_assert_bind, empty, hsize, isBoundsError]
  · unfold operator_index
    simp [runtime_assert_bind, hsize, isBoundsError]

/-- C18 (witness): the tests `dynamic_extent_tests.default_ctor` and
`assert_test.get_by_idx`, the dynamic extent with index `0` and 4-byte elements. -/
theorem C18_default_constructed_witness :
    ctor_default_requires dynamic_extent = true ∧
    view_default_dynamic.size = 0 ∧
    isBoundsError (view_default_dynamic.operator_index 0) = true :=
  ⟨by decide, (C18_default_constructed dynamic_extent (by decide) 4 0).2.1,
    (C18_default_constructed dynamic_extent (by decide) 4 0).2.2.2.2.2.2⟩

/-! ## How failures reach the caller -/

theorem returnsOrBoundsError_assert_bind {α : Type} (c : Bool) (m : String)
    (k : Unit → Except failure α) (hk : returnsOrBoundsError (k ()) = true) :
    returnsOrBoundsError ((runtime_assert c m).bind k) = true := by
  rw [runtime_assert_bind]
  cases c
  · rfl
  · exact hk

theorem returnsOrBoundsError_ctor_count (Extent : Nat) (first : Int) (count : Nat) :
    returnsOrBoundsError (ctor_count Extent first count) = true := by
  rw [ctor_count_eq]
  split_ifs <;> rfl

theorem returnsOrBoundsError_ctor_range (S Extent : Nat) (first last : Int) :
    returnsOrBoundsError (ctor_range S Extent first last) = true := by
  have hr := returnsOrBoundsError_ctor_count Extent first (to_size_t (ptr_diff S last first))
  unfold ctor_range
  cases hcc : ctor_count Extent first (to_size_t (ptr_diff S last first)) with
  | error e =>
    rw [hcc] at hr
    exact hr
  | ok u =>
    change returnsOrBoundsError ((runtime_assert _ "no").bind fun _ => Except.ok u) = true
    exact returnsOrBoundsError_assert_bind _ _ _ rfl

/-- The converting constructor, case by case. -/
theorem ctor_convert_eq (Extent : Nat) (other : contiguous_view) :
    ctor_convert Extent other =
      if Extent = dynamic_extent then .ok ⟨other._first, sizer.dynamic other.size⟩
      else if other.size ≤ Extent then .ok ⟨other._first, sizer.fixed Extent⟩
      else .error failure.terminate := by
  unfold ctor_convert
  simp only [runtime_assert_bind, sizer.ctor, begin]
  by_cases hE : Extent = dynamic_extent
  · simp [hE, size_mk, sizer_size_dynamic, noexcept]
  · by_cases hc : other.size ≤ Extent
    · simp [hE, hc, size_mk, sizer_size_fixed, noexcept]
    · simp [hE, hc, size_mk, sizer_size_fixed, noexcept]

/-- C19 (counterexample): the test `assert_test.view_constructor`, a dynamic view
of length `3` converted to the static extent `2`: the call fails, and what
reaches its caller is not the assertion primitive's error but the end of the
program. -/
theorem C19_counterexample :
    succeeds (ctor_convert 2 view3_dynamic) = false ∧
    isBoundsError (ctor_convert 2 view3_dynamic) = false ∧
    ctor_convert 2 view3_dynamic = .error failure.terminate := by
  refine ⟨by decide, by decide, rfl⟩

/-- C19 (amended): in both constructors from positions, `operator[]`, `front`,
`back`, and the run-time and compile-time `subview`, `first` and `last`, a call
either returns or fails with the assertion primitive's error delivered to its
caller; the converting constructor, being `noexcept`, never delivers that error:
it either returns or ends the program. -/
theorem C19_failure_kinds (S Extent : Nat) (first last : Int) (count offset idx : Nat)
    (v other : contiguous_view) :
    returnsOrBoundsError (ctor_count Extent first count) = true ∧
    returnsOrBoundsError (ctor_range S Extent first last) = true ∧
    returnsOrBoundsError (v.operator_index idx) = true ∧
    returnsOrBoundsError v.front = true ∧
    returnsOrBoundsError v.back = true ∧
    returnsOrBoundsError (v.subview S offset count) = true ∧
    returnsOrBoundsError (v.first count) = true ∧
    returnsOrBoundsError (v.last count) = true ∧
    returnsOrBoundsError (v.subview_tmpl S offset count) = true ∧
    returnsOrBoundsError (v.first_tmpl count) = true ∧
    returnsOrBoundsError (v.last_tmpl count) = true ∧
    (succeeds (ctor_convert Extent other) = true ∨
      ctor_convert Extent other = .error failure.terminate) ∧
    isBoundsError (ctor_convert Extent other) = false := by
  refine ⟨returnsOrBoundsError_ctor_count _ _ _, returnsOrBoundsError_ctor_range _ _ _ _,
    ?_, ?_, ?_, ?_, ?_, ?_, ?_, ?_, ?_, ?_, ?_⟩
  · exact returnsOrBoundsError_assert_bind _ _ _ rfl
  · exact returnsOrBoundsError_assert_bind _ _ _ rfl
  · exact returnsOrBoundsError_assert_bind _ _ _ rfl
  · unfold subview
    split_ifs
    · exact returnsOrBoundsError_assert_bind _ _ _ (returnsOrBoundsError_ctor_range _ _ _ _)
    · exact returnsOrBoundsError_assert_bind _ _ _ (returnsOrBoundsError_ctor_range _ _ _ _)
  · rw [first_eq]
    split_ifs <;> rfl
  · rw [last_eq]
    split_ifs <;> rfl
  · unfold subview_tmpl
    split_ifs
    · exact returnsOrBoundsError_assert_bind _ _ _ (returnsOrBoundsError_ctor_range _ _ _ _)
    · exact returnsOrBoundsError_assert_bind _ _ _ (returnsOrBoundsError_ctor_range _ _ _ _)
    · exact returnsOrBoundsError_assert_bind _ _ _ (returnsOrBoundsError_ctor_count _ _ _)
  · rw [first_tmpl_eq]
    split_ifs <;> rfl
  · rw [last_tmpl_eq]
    split_ifs <;> rfl
  · rw [ctor_convert_eq]
    split_ifs
    · exact Or.inl rfl
    · exact Or.inl rfl
    · exact Or.inr rfl
  · rw [ctor_convert_eq]
    split_ifs <;> rfl

/-! ## Implicit and explicit conversions -/

/-- C20: the converting constructor from a view of extent `N` to a view of extent
`E` is implicit exactly when `E` is dynamic or `E == N`, and explicit otherwise;
from a dynamic-extent source it is explicit for every static target extent. -/
theorem C20_convert_explicit (Extent N : Nat) :
    (ctor_convert_explicit Extent N = false ↔ (Extent = dynamic_extent ∨ Extent = N)) ∧
    (ctor_convert_explicit Extent N = true ↔ (Extent ≠ dynamic_extent ∧ Extent ≠ N)) ∧
    (ctor_convert_explicit Extent dynamic_extent = true ↔ Extent ≠ dynamic_extent) ∧
    (ctor_convert_explicit Extent dynamic_extent = false ↔ Extent = dynamic_extent) := by
  unfold ctor_convert_explicit
  by_cases h1 : Extent = dynamic_extent
  · simp [h1]
  · by_cases h2 : Extent = N
    · simp [h1, h2]
    · simp [h1, h2]

end ContiguousView

namespace ContiguousView

open contiguous_view

/-! ## Conversion to a text view -/

/-- C21: for a view of `const char` with address `A` and length `L`, of static or
dynamic extent, the conversion to `std::string_view` is available, and it yields
the character-sequence view with address `A` and length `L`. -/
theorem C21_operator_string_view (v : contiguous_view) (A : Int) (L : Nat) :
    (operator_string_view v).data = v.data ∧
    (operator_string_view v).size = v.size ∧
    operator_string_view ⟨A, sizer.dynamic L⟩ = ⟨A, L⟩ ∧
    operator_string_view ⟨A, sizer.fixed L⟩ = ⟨A, L⟩ ∧
    operator_string_view_requires const_char = true ∧
    operator_string_view view7_dynamic = operator_string_view view7_static := by
  refine ⟨rfl, rfl, rfl, rfl, by decide, rfl⟩

/-! ## Compile-time slicing of a static-extent view -/

/-- C23: on a view of static extent `E` at address `A`, for template arguments
with `Offset <= E` and `Count <= E - Offset`, the `static_assert`s hold and the
compile-time slicing forms return without failure: `subview<Offset, Count>()` is
the view of static extent `Count` at `A + Offset`, `first<Count>()` the view of
static extent `Count` at `A`, `last<Count>()` the view of static extent `Count`
at `A + E - Count`, and, the view being over existing storage of elements of
size `S`, `subview<Offset>()` is the view of static extent `E - Offset` at
`A + Offset`. -/
theorem C23_tmpl_slices_of_static_view (S : Nat) (A : Int) (E Offset Count : Nat)
    (hE : E < dynamic_extent) (hO : Offset ≤ E) (hC : Count ≤ E - Offset) :
    subview_tmpl_static_assert E Offset Count = true ∧
    subview_tmpl_static_assert E Offset dynamic_extent = true ∧
    first_tmpl_static_assert E Count = true ∧
    last_tmpl_static_assert E Count = true ∧
    subview_tmpl S ⟨A, sizer.fixed E⟩ Offset Count = .ok ⟨A + Offset, sizer.fixed Count⟩ ∧
    (over_storage S ⟨A, sizer.fixed E⟩ →
      subview_tmpl S ⟨A, sizer.fixed E⟩ Offset dynamic_extent =
        .ok ⟨A + Offset, sizer.fixed (E - Offset)⟩) ∧
    first_tmpl ⟨A, sizer.fixed E⟩ Count = .ok ⟨A, sizer.fixed Count⟩ ∧
    last_tmpl ⟨A, sizer.fixed E⟩ Count = .ok ⟨A + (E : Int) - (Count : Int), sizer.fixed Count⟩ := by
  have hE0 := hE
  rw [dynamic_extent_eq] at hE
  have hEd : E ≠ dynamic_extent := by
    rw [dynamic_extent_eq]
    omega
  have hCd : Count ≠ dynamic_extent := by
    rw [dynamic_extent_eq]
    omega
  have hsub : (E + 2 ^ 64 - Offset) % 2 ^ 64 = E - Offset := by
    norm_num
    omega
  have hCE : Count ≤ E := by omega
  have hs : contiguous_view.size ⟨A, sizer.fixed E⟩ = E := rfl
  have hx : contiguous_view.Extent ⟨A, sizer.fixed E⟩ = E := rfl
  have hf : contiguous_view._first ⟨A, sizer.fixed E⟩ = A := rfl
  have hctor : sizer.ctor Count Count = sizer.fixed Count := by
    simp only [sizer.ctor, hCd, if_false]
  have hsa : subview_tmpl_static_assert E Offset Count = true := by
    unfold subview_tmpl_static_assert
    rw [hsub]
    simp only [hO, hC, decide_True, Bool.or_true, Bool.and_self]
  refine ⟨hsa, ?_, ?_, ?_, ?_, ?_, ?_, ?_⟩
  · unfold subview_tmpl_static_assert
    simp only [hO, decide_True, beq_self_eq_true, Bool.true_or, Bool.and_self]
  · unfold first_tmpl_static_assert
    simp only [hCE, decide_True]
  · unfold last_tmpl_static_assert
    simp only [hCE, decide_True]
  · have hxlt : contiguous_view.Extent ⟨A, sizer.fixed E⟩ < 2 ^ 64 := by
      rw [hx]
      norm_num
      omega
    have h1 : Offset + Count ≤ E := by omega
    rw [subview_tmpl_count_eq S ⟨A, sizer.fixed E⟩ Offset Count hxlt (by rw [hx]; exact hsa) hCd,
      hs, hf, if_pos h1]
  · intro hst
    rw [subview_tmpl_remainder_eq S ⟨A, sizer.fixed E⟩ Offset hst, hs, hf, hx, if_pos hO,
      if_neg hEd]
  · rw [first_tmpl_eq, hs, hctor]
    simp only [hCE, if_true]
  · rw [last_tmpl_eq, hs, hctor]
    simp only [hCE, if_true]

/-- C23 (witness): the tests `common_tests.subview` and
`common_tests.subview_dynamic_extent` at the static extent `5`:
`subview<2, 3>()` and `subview<2>()`. -/
theorem C23_tmpl_slices_of_static_view_witness :
    ((5 : Nat) < dynamic_extent ∧ 2 ≤ 5 ∧ 3 ≤ 5 - 2 ∧
      over_storage sizeof_element ⟨1000, sizer.fixed 5⟩) ∧
    subview_tmpl sizeof_element ⟨1000, sizer.fixed 5⟩ 2 3 =
      .ok ⟨(1000 : Int) + ((2 : Nat) : Int), sizer.fixed 3⟩ ∧
    subview_tmpl sizeof_element ⟨1000, sizer.fixed 5⟩ 2 dynamic_extent =
      .ok ⟨(1000 : Int) + ((2 : Nat) : Int), sizer.fixed (5 - 2)⟩ :=
  ⟨⟨by decide, by decide, by decide, by decide⟩,
    (C23_tmpl_slices_of_static_view sizeof_element 1000 5 2 3 (by decide) (by decide)
      (by decide)).2.2.2.2.1,
    (C23_tmpl_slices_of_static_view sizeof_element 1000 5 2 3 (by decide) (by decide)
      (by decide)).2.2.2.2.2.1 (by decide)⟩

/-! ## Relations between the run-time slicing operations -/

/-- The remainder `subview(offset)` on a view over existing storage. -/
theorem subview_remainder_eq (S : Nat) (v : contiguous_view) (offset : Nat)
    (hs : over_storage S v) :
    v.subview S offset dynamic_extent =
      if offset ≤ v.size then .ok ⟨v._first + offset, sizer.dynamic (v.size - offset)⟩
      else .error (failure.assertion_error "Offset < size.") := by
  rw [subview_eq S v offset dynamic_extent hs (Or.inl rfl), if_pos rfl]

/-- A remainder slice of a view over existing storage is over existing storage. -/
theorem over_storage_remainder (S : Nat) (v : contiguous_view) (a : Nat)
    (hs : over_storage S v) (ha : a ≤ v.size) :
    over_storage S ⟨v._first + a, sizer.dynamic (v.size - a)⟩ := by
  obtain ⟨hS, hA, hend, hbytes⟩ := hs
  refine ⟨hS, ?_, ?_, ?_⟩
  · show 0 ≤ v._first + (a : Int)
    omega
  · have h : v._first + (a : Int) + ((v.size - a : Nat) : Int) = v._first + (v.size : Int) := by
      omega
    show (v._first + (a : Int) + ((v.size - a : Nat) : Int)) * (S : Int) < 2 ^ 64
    rw [h]
    exact hend
  · show (v.size - a) * S < 2 ^ 63
    exact lt_of_le_of_lt (Nat.mul_le_mul_right S (Nat.sub_le _ _)) hbytes

/-- C24: on a view over existing storage of length `L`, for `a <= L` the
remainder `subview(a)` returns a view of length `L - a`; for `b <= L - a` its
remainder `subview(b)` returns and equals `subview(a + b)` of the source, the
view at `A + a + b` of length `L - a - b`; for `b > L - a` the second `subview`
fails with the assertion primitive's error. -/
theorem C24_subview_remainder_composes (S : Nat) (v : contiguous_view) (a b : Nat)
    (hs : over_storage S v) (ha : a ≤ v.size) :
    ∃ w, v.subview S a dynamic_extent = .ok w ∧ w.size = v.size - a ∧
      (b ≤ v.size - a →
        w.subview S b dynamic_extent = v.subview S (a + b) dynamic_extent ∧
        w.subview S b dynamic_extent =
          .ok ⟨v._first + (a : Int) + (b : Int), sizer.dynamic (v.size - a - b)⟩) ∧
      (v.size - a < b → isBoundsError (w.subview S b dynamic_extent) = true) := by
  have hw := over_storage_remainder S v a hs ha
  refine ⟨⟨v._first + a, sizer.dynamic (v.size - a)⟩, ?_, rfl, ?_, ?_⟩
  · rw [subview_remainder_eq S v a hs, if_pos ha]
  · intro hb
    have hab : a + b ≤ v.size := by omega
    have haddr : v._first + ((a + b : Nat) : Int) = v._first + (a : Int) + (b : Int) := by
      push_cast
      omega
    have hlen : v.size - (a + b) = v.size - a - b := by omega
    rw [subview_remainder_eq S _ b hw, subview_remainder_eq S v (a + b) hs, if_pos hab, haddr,
      hlen]
    have hb2 : b ≤ contiguous_view.size ⟨v._first + a, sizer.dynamic (v.size - a)⟩ := hb
    rw [if_pos hb2]
    exact ⟨rfl, rfl⟩
  · intro hb
    have hb2 : ¬ b ≤ contiguous_view.size ⟨v._first + a, sizer.dynamic (v.size - a)⟩ :=
      Nat.not_le.mpr hb
    rw [subview_remainder_eq S _ b hw, if_neg hb2]
    rfl

/-- C24 (witness): `[10, 20, 30, 40, 50]` with `a = 1`, `b = 2`. -/
theorem C24_subview_remainder_composes_witness :
    (over_storage sizeof_element view5_static ∧ 1 ≤ view5_static.size) ∧
    ∃ w, view5_static.subview sizeof_element 1 dynamic_extent = .ok w ∧
      w.size = view5_static.size - 1 ∧
      (2 ≤ view5_static.size - 1 →
        w.subview sizeof_element 2 dynamic_extent =
          view5_static.subview sizeof_element (1 + 2) dynamic_extent ∧
        w.subview sizeof_element 2 dynamic_extent =
          .ok ⟨view5_static._first + ((1 : Nat) : Int) + ((2 : Nat) : Int),
            sizer.dynamic (view5_static.size - 1 - 2)⟩) ∧
      (view5_static.size - 1 < 2 →
        isBoundsError (w.subview sizeof_element 2 dynamic_extent) = true) :=
  ⟨⟨by decide, by decide⟩,
    C24_subview_remainder_composes sizeof_element view5_static 1 2 (by decide) (by decide)⟩

/-- C25: on a view over existing storage of length `L`, for every `k` other than
the sentinel, `first(k)` and `subview(0, k)` agree: both fail with the assertion
primitive's error or both return the same view; and for every `j <= L`,
`last(j)`, `subview(L - j, j)` and `subview(L - j)` return the same view. -/
theorem C25_first_last_as_subview (S : Nat) (v : contiguous_view) (k j : Nat)
    (hs : over_storage S v) (hk : k < dynamic_extent) (hj : j ≤ v.size) :
    (succeeds (v.first k) = succeeds (v.subview S 0 k)) ∧
    (isBoundsError (v.first k) = isBoundsError (v.subview S 0 k)) ∧
    (returnsOrBoundsError (v.first k) = true) ∧
    (∀ w, v.first k = .ok w ↔ v.subview S 0 k = .ok w) ∧
    v.last j = .ok ⟨v._first + (v.size : Int) - (j : Int), sizer.dynamic j⟩ ∧
    v.subview S (v.size - j) j = v.last j ∧
    v.subview S (v.size - j) dynamic_extent = v.last j := by
  have hsize := size_lt_of_over_storage S v hs
  norm_num at hsize
  have hk2 := hk
  rw [dynamic_extent_eq] at hk2
  have hkd : k ≠ dynamic_extent := Nat.ne_of_lt hk
  have hjd : j ≠ dynamic_extent := by
    rw [dynamic_extent_eq]
    omega
  have hA0 : v._first + ((0 : Nat) : Int) = v._first := by
    push_cast
    omega
  have hfirst := first_eq v k
  have hsub0 : v.subview S 0 k =
      if k ≤ v.size then .ok ⟨v._first, sizer.dynamic k⟩
      else .error (failure.assertion_error "Size + Offset must be lower or equals than size.") := by
    rw [subview_eq S v 0 k hs (Or.inr (by norm_num; omega)), if_neg hkd, Nat.zero_add, hA0]
  have hlast : v.last j = .ok ⟨v._first + (v.size : Int) - (j : Int), sizer.dynamic j⟩ := by
    rw [last_eq, if_pos hj]
  have haddr : v._first + ((v.size - j : Nat) : Int) = v._first + (v.size : Int) - (j : Int) := by
    omega
  refine ⟨?_, ?_, ?_, ?_, hlast, ?_, ?_⟩
  · rw [hfirst, hsub0]
    split_ifs <;> rfl
  · rw [hfirst, hsub0]
    split_ifs <;> rfl
  · rw [hfirst]
    split_ifs <;> rfl
  · intro w
    rw [hfirst, hsub0]
    by_cases h : k ≤ v.size <;> simp [h]
  · have h1 : v.size - j + j ≤ v.size := by omega
    rw [hlast, subview_eq S v (v.size - j) j hs (Or.inr (by norm_num; omega)), if_neg hjd,
      if_pos h1, haddr]
  · have h1 : v.size - j ≤ v.size := Nat.sub_le _ _
    have h2 : v.size - (v.size - j) = j := by omega
    rw [hlast, subview_remainder_eq S v _ hs, if_pos h1, haddr, h2]

/-- C25 (witness): `[10, 20, 30]` with `k = 2` and `j = 2` (the tests
`common_tests.first` and `common_tests.last`). -/
theorem C25_first_last_as_subview_witness :
    (over_storage sizeof_element view3_static ∧ (2 : Nat) < dynamic_extent ∧
      2 ≤ view3_static.size) ∧
    (∀ w, view3_static.first 2 = .ok w ↔ view3_static.subview sizeof_element 0 2 = .ok w) ∧
    view3_static.subview sizeof_element (view3_static.size - 2) 2 = view3_static.last 2 ∧
    view3_static.subview sizeof_element (view3_static.size - 2) dynamic_extent =
      view3_static.last 2 :=
  ⟨⟨by decide, by decide, by decide⟩,
    (C25_first_last_as_subview sizeof_element view3_static 2 2 (by decide) (by decide)
      (by decide)).2.2.2.1,
    (C25_first_last_as_subview sizeof_element view3_static 2 2 (by decide) (by decide)
      (by decide)).2.2.2.2.2.1,
    (C25_first_last_as_subview sizeof_element view3_static 2 2 (by decide) (by decide)
      (by decide)).2.2.2.2.2.2⟩

end ContiguousView
